import Mathlib

/-!
Verification of the ecomodel-hub health-economic modeling engine.

This file gives a shallow embedding, over exact rational arithmetic, of the
quantitative engine modules of the repository:

* `MarkovCore` — the fixed 3-state cohort model (`backend/engine/markov/core.py`);
* `Flexible` — the n-state flexible cohort model (`backend/engine/markov/flexible.py`);
* `DTree` — the decision-tree evaluator (`backend/engine/decision_tree/core.py`);
* `BIA` — the budget-impact model (`backend/engine/budget_impact/core.py`);
* `PSA` — probabilistic sensitivity analysis (`backend/engine/sensitivity/probabilistic.py`);
* `VOI` — value-of-information analysis (`backend/engine/sensitivity/value_of_information.py`).

Modelling conventions:

* Python floats are idealised as `ℚ`; `round(x, n)` is embedded as round-half-to-even
  at `n` decimal digits (`pyRound`), `int(x)` as truncation toward zero (`pyInt`).
* Python dicts (in insertion order) are embedded as association lists; updating an
  existing key keeps its position, a new key is appended (`alSet`), matching
  CPython's ordered-dict semantics.
* Code that can raise is embedded in `Except String`.
* Transcendental library calls (`np.exp`, fractional `**`) and the numpy random
  generator are not code of this repository; they are abstracted as parameters
  (`FloatOps`, `RngImpl`) so that every theorem quantifies over any implementation
  of them, floats themselves being rationals.
-/

/-- Python `int()` on a float value: truncation toward zero. -/
def pyInt (q : ℚ) : ℤ :=
if 0 ≤ q then ⌊q⌋ else -⌊-q⌋

/-- Round a rational to the nearest integer, ties to even (Python `round` on floats). -/
def roundHalfEven (q : ℚ) : ℤ :=
if q - ⌊q⌋ < 1/2 then ⌊q⌋
else if 1/2 < q - ⌊q⌋ then ⌊q⌋ + 1
else if ⌊q⌋ % 2 = 0 then ⌊q⌋ else ⌊q⌋ + 1

/-- Python `round(x, n)`: round half to even at `n` decimal digits. -/
def pyRound (q : ℚ) (n : ℕ) : ℚ :=
(roundHalfEven (q * 10 ^ n) : ℚ) / 10 ^ n

/-- Python truthy `or` for an optional number: `None` and `0` are falsy. -/
def pyOrQ (a : Option ℚ) (b : ℚ) : ℚ :=
match a with
| none => b
| some v => if v = 0 then b else v

/-- Association-list embedding of a Python `dict` (keys kept in insertion order). -/
abbrev PyDict (α : Type) := List (String × α)

/-- Python `dict.get(k, d)`. -/
def alGetD {α : Type} (l : PyDict α) (k : String) (d : α) : α :=
match l.find? (fun p => p.1 = k) with
| some p => p.2
| none => d

/-- Python `dict[k]` as an optional lookup. -/
def alGet {α : Type} (l : PyDict α) (k : String) : Option α :=
(l.find? (fun p => p.1 = k)).map Prod.snd

/-- Python `k in dict`. -/
def alHas {α : Type} (l : PyDict α) (k : String) : Bool :=
(l.find? (fun p => p.1 = k)).isSome

/-- Python `dict[k] = v`: overwrite in place, else append. -/
def alSet {α : Type} (l : PyDict α) (k : String) (v : α) : PyDict α :=
if alHas l k then l.map (fun p => if p.1 = k then (k, v) else p) else l ++ [(k, v)]

/-- Keys of the dict, in order. -/
def alKeys {α : Type} (l : PyDict α) : List String := l.map Prod.fst

/-- Sum of `dict.values()`. -/
def alValsSum (l : PyDict ℚ) : ℚ := (l.map Prod.snd).sum

/-- Pointwise sum of two vectors (numpy `+` on equal-length arrays). -/
def listAdd (a b : List ℚ) : List ℚ := List.zipWith (· + ·) a b

/-- Row-vector × matrix product `v @ M` with `ncols` columns (numpy `@`). -/
def vecMatMul (ncols : ℕ) (v : List ℚ) (M : List (List ℚ)) : List ℚ :=
(v.zip M).foldl (fun acc p => listAdd acc (p.2.map (p.1 * ·))) (List.replicate ncols 0)

/-- numpy `linspace(a, b, n)`. -/
def npLinspace (a b : ℚ) (n : ℕ) : List ℚ :=
if n = 1 then [a]
else (List.range n).map (fun i => a + (b - a) * i / (n - 1 : ℕ))

/-- Arithmetic mean of a list (numpy `mean`; meaningful on nonempty input). -/
def npMean (l : List ℚ) : ℚ := l.sum / l.length

/-- Insert into an ascending list, for the embedding of numpy's ascending sort. -/
def insSorted (a : ℚ) : List ℚ → List ℚ
| [] => [a]
| b :: bs => if a ≤ b then a :: b :: bs else b :: insSorted a bs

/-- Ascending sort (numpy `sort`). -/
def sortAsc (l : List ℚ) : List ℚ := l.foldr insSorted []

/-- Linear interpolation at rank `h` in an ascending list (numpy percentile kernel). -/
def interpAt (s : List ℚ) (h : ℚ) : ℚ :=
let k : ℤ := ⌊h⌋
let lo := s.getD k.toNat 0
let hi := s.getD (k.toNat + 1) lo
lo + (h - k) * (hi - lo)

/-- numpy `percentile(l, q)` with the default linear interpolation. -/
def npPercentile (l : List ℚ) (q : ℚ) : ℚ :=
interpAt (sortAsc l) ((l.length - 1 : ℕ) * q / 100)

/-- numpy `median` (equals the 50th percentile under linear interpolation). -/
def npMedian (l : List ℚ) : ℚ := npPercentile l 50

/-- Index of the first maximal element (numpy `argmax`; meaningful on nonempty input). -/
def npArgmax (l : List ℚ) : ℕ :=
(l.foldl
  (fun st x =>
    match st with
    | (i, best, bestIdx) => if best < x then (i + 1, x, i) else (i + 1, best, bestIdx))
  ((0 : ℕ), (l.headD 0), (0 : ℕ))).2.2

/-- Value of ± infinity or a finite ICER, as computed before result formatting. -/
inductive ICERValue : Type
| posInf : ICERValue
| negInf : ICERValue
| fin : ℚ → ICERValue
deriving DecidableEq, Repr

/-- Comparison `icer < wtp` as Python evaluates it on the float values. -/
def ICERValue.ltQ : ICERValue → ℚ → Bool
| .posInf, _ => false
| .negInf, _ => true
| .fin q, w => q < w

namespace MarkovCore

/-- Parameter mapping consumed by the fixed 3-state model, with the `.get` defaults
of `core.py` (`build_transition_matrix` and `calculate_outcomes`). -/
structure Params where
  prob_s_to_p : ℚ := 1/10
  prob_s_to_d : ℚ := 1/50
  prob_p_to_d : ℚ := 3/20
  cost_drug : ℚ := 0
  cost_state_s : ℚ := 200
  cost_state_p : ℚ := 4500
  utility_stable : ℚ := 17/20
  utility_progression : ℚ := 1/2
deriving Repr

/-- Configuration of `MarkovModel` (`MarkovConfig` in core.py). -/
structure Config where
  time_horizon : ℕ
  cycle_length : ℕ := 1
  discount_rate_costs : ℚ := 3/100
  discount_rate_outcomes : ℚ := 3/100
  cohort_size : ℕ := 1000
deriving Repr

/-- Number of cycles: `time_horizon // cycle_length`. -/
def Config.n_cycles (c : Config) : ℕ := c.time_horizon / c.cycle_length

/-- Embedding of `MarkovModel.build_transition_matrix` (core.py lines 49-76):
validates only `p_sp + p_sd > 1.0`, then assembles the 3×3 matrix. -/
def build_transition_matrix (p : Params) : Except String (List (List ℚ)) :=
if p.prob_s_to_p + p.prob_s_to_d > 1 then
  .error "Transition probabilities from Stable exceed 1.0"
else
  .ok [[1 - p.prob_s_to_p - p.prob_s_to_d, p.prob_s_to_p, p.prob_s_to_d],
       [0, 1 - p.prob_p_to_d, p.prob_p_to_d],
       [0, 0, 1]]

/-- Row `t` of the cohort trace: row 0 is the initial distribution, each later row is
the previous row times the transition matrix (`trace[t] = trace[t-1] @ M`). -/
def traceRow (M : List (List ℚ)) (init : List ℚ) : ℕ → List ℚ
| 0 => init
| t + 1 => vecMatMul 3 (traceRow M init t) M

/-- Embedding of `MarkovModel.run_cohort_simulation` (core.py lines 78-100) with the
default initial distribution `[cohort_size, 0, 0]`. -/
def run_cohort_simulation (cfg : Config) (M : List (List ℚ)) : List (List ℚ) :=
(List.range (cfg.n_cycles + 1)).map (traceRow M [(cfg.cohort_size : ℚ), 0, 0])

/-- Results record of one strategy (`StrategyResults` in core.py). -/
structure StrategyResults where
  total_cost : ℚ
  total_qalys : ℚ
  life_years : ℚ
  state_trace : List (List ℚ)
deriving Repr, DecidableEq

/-- Embedding of `MarkovModel.calculate_outcomes` (core.py lines 102-160): per-cycle
costs and QALYs discounted by `1/(1+r)^cycle` and accumulated over cycles 1..n, then
divided by the cohort size and rounded at the boundary. -/
def calculate_outcomes (cfg : Config) (trace : List (List ℚ)) (p : Params) :
    StrategyResults :=
let cost := fun (k : ℕ) =>
  let cycle := k + 1
  let row := trace.getD cycle []
  let n_stable := row.getD 0 0
  let n_progression := row.getD 1 0
  ((n_stable + n_progression) * p.cost_drug + n_stable * p.cost_state_s +
      n_progression * p.cost_state_p) *
    (1 / (1 + cfg.discount_rate_costs) ^ cycle)
let qaly := fun (k : ℕ) =>
  let cycle := k + 1
  let row := trace.getD cycle []
  (row.getD 0 0 * p.utility_stable + row.getD 1 0 * p.utility_progression) *
    (1 / (1 + cfg.discount_rate_outcomes) ^ cycle)
let ly := fun (k : ℕ) =>
  let row := trace.getD (k + 1) []
  row.getD 0 0 + row.getD 1 0
{ total_cost := pyRound (((List.range cfg.n_cycles).map cost).sum) 2
  total_qalys := pyRound ((((List.range cfg.n_cycles).map qaly).sum) / cfg.cohort_size) 4
  life_years := pyRound ((((List.range cfg.n_cycles).map ly).sum) / cfg.cohort_size) 2
  state_trace := trace }

/-- Embedding of the ICER classification of `compare_strategies` (core.py lines
183-189): when `delta_qaly == 0` the ICER is `float('inf')` (regardless of the sign
of `delta_cost`) and dominance is `delta_cost > 0`. -/
def classifyICER (delta_cost delta_qaly : ℚ) : ICERValue × Bool :=
if delta_qaly = 0 then (.posInf, decide (delta_cost > 0))
else (.fin (delta_cost / delta_qaly), decide (delta_cost > 0 ∧ delta_qaly < 0))

/-- Comparison record (`ComparisonResults` in core.py); `icer = None` encodes the
infinite case, as in `round(icer, 2) if icer != float('inf') else None`. -/
structure ComparisonResults where
  strategy_a : StrategyResults
  strategy_b : StrategyResults
  delta_cost : ℚ
  delta_qaly : ℚ
  icer : Option ℚ
  is_dominated : Bool
  conclusion : String
deriving Repr, DecidableEq

/-- Embedding of `MarkovModel.compare_strategies` (core.py lines 162-208). -/
def compare_strategies (cfg : Config) (pa pb : Params) :
    Except String ComparisonResults :=
match build_transition_matrix pa with
| .error e => .error e
| .ok ma =>
  match build_transition_matrix pb with
  | .error e => .error e
  | .ok mb =>
    let ra := calculate_outcomes cfg (run_cohort_simulation cfg ma) pa
    let rb := calculate_outcomes cfg (run_cohort_simulation cfg mb) pb
    let delta_cost := ra.total_cost - rb.total_cost
    let delta_qaly := ra.total_qalys - rb.total_qalys
    let cls := classifyICER delta_cost delta_qaly
    .ok { strategy_a := ra
          strategy_b := rb
          delta_cost := pyRound delta_cost 2
          delta_qaly := pyRound delta_qaly 4
          icer := match cls.1 with
                  | .fin q => some (pyRound q 2)
                  | _ => none
          is_dominated := cls.2
          conclusion :=
            if cls.2 then "Dominated"
            else if cls.1.ltQ 30000 then "Cost-Effective"
            else "Not Cost-Effective" }

end MarkovCore

/-- Example parameter choice exercising the unvalidated `prob_p_to_d`. -/
def c10Params : MarkovCore.Params := { prob_p_to_d := 2 }

/-- C10: the fixed-model matrix builder raises exactly when
`prob_s_to_p + prob_s_to_d > 1`; `prob_p_to_d` is never validated, so any accepted
input with `prob_p_to_d > 1` yields a matrix containing an entry outside `[0, 1]`. -/
theorem C10_core_matrix_validation :
    (∀ p : MarkovCore.Params,
      (∃ M, MarkovCore.build_transition_matrix p = .ok M) ↔
        p.prob_s_to_p + p.prob_s_to_d ≤ 1) ∧
    (∀ p : MarkovCore.Params, p.prob_s_to_p + p.prob_s_to_d ≤ 1 → 1 < p.prob_p_to_d →
      ∃ M, MarkovCore.build_transition_matrix p = .ok M ∧
        ∃ row ∈ M, ∃ x ∈ row, x < 0 ∨ 1 < x) := by
  constructor
  · intro p
    unfold MarkovCore.build_transition_matrix
    constructor
    · intro ⟨M, hM⟩
      by_contra h
      rw [if_pos (lt_of_not_le h)] at hM
      exact Except.noConfusion hM
    · intro h
      rw [if_neg (not_lt.mpr h)]
      exact ⟨_, rfl⟩
  · intro p h hpd
    refine ⟨[[1 - p.prob_s_to_p - p.prob_s_to_d, p.prob_s_to_p, p.prob_s_to_d],
             [0, 1 - p.prob_p_to_d, p.prob_p_to_d], [0, 0, 1]], ?_, ?_⟩
    · unfold MarkovCore.build_transition_matrix
      rw [if_neg (not_lt.mpr h)]
    · refine ⟨[0, 1 - p.prob_p_to_d, p.prob_p_to_d], by simp, 1 - p.prob_p_to_d, by simp, ?_⟩
      left; linarith

/-- Witness for C10 at the concrete input `prob_p_to_d = 2` (all hypotheses hold and
the produced matrix contains the entry `-1 < 0`). -/
theorem C10_core_matrix_validation_witness :
    ∃ M, MarkovCore.build_transition_matrix c10Params = .ok M ∧
      ∃ row ∈ M, ∃ x ∈ row, x < 0 ∨ 1 < x := by
  refine C10_core_matrix_validation.2 c10Params ?_ ?_
  · show (1 : ℚ)/10 + 1/50 ≤ 1
    norm_num
  · show (1 : ℚ) < 2
    norm_num

/-- Sum of the pointwise ratio list: mapping division distributes over the sum. -/
theorem sum_map_divQ (l : List ℚ) (b : ℚ) : (l.map (· / b)).sum = l.sum / b := by
  induction l with
  | nil => simp
  | cons x xs ih => simp [ih, add_div]

/-- Sum of a left-scaled list. -/
theorem sum_map_mulQ (b : ℚ) (l : List ℚ) : (l.map (b * ·)).sum = b * l.sum := by
  induction l with
  | nil => simp
  | cons x xs ih => simp [ih, mul_add]

/-- Sum of a pointwise vector sum of equal-length vectors. -/
theorem sum_listAdd (a b : List ℚ) (h : a.length = b.length) :
    (listAdd a b).sum = a.sum + b.sum := by
  induction a generalizing b with
  | nil => cases b with
    | nil => simp [listAdd]
    | cons y ys => simp at h
  | cons x xs ih =>
    cases b with
    | nil => simp at h
    | cons y ys =>
      have h2 : xs.length = ys.length := by simpa using h
      simp only [listAdd, List.zipWith_cons_cons, List.sum_cons]
      rw [show List.zipWith (· + ·) xs ys = listAdd xs ys from rfl, ih ys h2]
      ring

/-- Length of a pointwise vector sum. -/
theorem length_listAdd (a b : List ℚ) : (listAdd a b).length = min a.length b.length := by
  simp [listAdd]

/-- The fold inside `vecMatMul` conserves mass: if every matrix row sums to one and has
`ncols` entries, the product's total equals the vector's total (plus the accumulator). -/
theorem vecMatMul_fold_sum (ncols : ℕ) (l : List (ℚ × List ℚ)) :
    ∀ acc : List ℚ, acc.length = ncols →
    (∀ p ∈ l, p.2.length = ncols ∧ p.2.sum = 1) →
    (l.foldl (fun acc p => listAdd acc (p.2.map (p.1 * ·))) acc).sum
        = acc.sum + (l.map Prod.fst).sum ∧
      (l.foldl (fun acc p => listAdd acc (p.2.map (p.1 * ·))) acc).length = ncols := by
  induction l with
  | nil => intro acc hlen _; simp [hlen]
  | cons p ps ih =>
    intro acc hlen hrows
    have hp := hrows p (List.mem_cons_self p ps)
    have hlen2 : (listAdd acc (p.2.map (p.1 * ·))).length = ncols := by
      rw [length_listAdd, List.length_map, hlen, hp.1]
      exact Nat.min_self ncols
    have hrec := ih (listAdd acc (p.2.map (p.1 * ·))) hlen2
      (fun q hq => hrows q (List.mem_cons_of_mem p hq))
    refine ⟨?_, by simpa using hrec.2⟩
    simp only [List.foldl_cons, List.map_cons, List.sum_cons]
    rw [hrec.1, sum_listAdd acc _ (by rw [List.length_map, hlen, hp.1]),
      sum_map_mulQ, hp.2]
    ring

/-- Mass conservation for `v @ M` when `M` is row-stochastic with square shape. -/
theorem vecMatMul_sum (ncols : ℕ) (v : List ℚ) (M : List (List ℚ))
    (hv : v.length = M.length)
    (hrows : ∀ r ∈ M, r.length = ncols ∧ r.sum = 1) :
    (vecMatMul ncols v M).sum = v.sum ∧ (vecMatMul ncols v M).length = ncols := by
  have hzip : ∀ p ∈ v.zip M, p.2.length = ncols ∧ p.2.sum = 1 := by
    intro p hp
    exact hrows p.2 (List.of_mem_zip hp).2
  have h := vecMatMul_fold_sum ncols (v.zip M) (List.replicate ncols 0)
    (List.length_replicate ncols 0) hzip
  unfold vecMatMul
  refine ⟨?_, h.2⟩
  rw [h.1, List.sum_replicate, List.map_fst_zip v M (le_of_eq hv)]
  simp

namespace Flexible

/-- State kinds of the flexible model (`StateType` in flexible.py). -/
inductive StateType : Type
| transient
| absorbing
| tunnel
deriving DecidableEq, Repr

/-- A state declaration (`State` in flexible.py). -/
structure State where
  name : String
  state_type : StateType := .transient
  cost : ℚ := 0
  utility : ℚ := 1
  one_time_cost : ℚ := 0
  tunnel_length : Option ℕ := none
deriving Repr, DecidableEq

/-- A declared transition (`Transition` in flexible.py). -/
structure Transition where
  from_state : String
  to_state : String
  probability : ℚ
  cost : ℚ := 0
  time_dependent : Bool := false
  probability_function : Option String := none
deriving Repr, DecidableEq

/-- Configuration of the flexible model (`FlexibleMarkovConfig` in flexible.py). -/
structure Config where
  name : String := "Custom Markov Model"
  time_horizon : ℕ
  cycle_length : ℚ := 1
  discount_rate_costs : ℚ := 3/100
  discount_rate_outcomes : ℚ := 3/100
  half_cycle_correction : Bool := true
  cohort_size : ℕ := 1000
deriving Repr

/-- Abstraction of the transcendental float routines the engine calls (`np.exp` and
fractional `**`). Any float produced by the real library is a rational, so theorems
quantified over `FloatOps` cover the real implementations. -/
structure FloatOps where
  exp : ℚ → ℚ
  rpow : ℚ → ℚ → ℚ

/-- A `FlexibleMarkovModel` instance: its configuration and declared states. -/
structure Model where
  config : Config
  states : List State
deriving Repr

/-- The ordered list of state names (`self.state_names`). -/
def Model.state_names (m : Model) : List String := m.states.map State.name

/-- Number of states (`self.n_states`). -/
def Model.n_states (m : Model) : ℕ := m.states.length

/-- Number of cycles: `int(time_horizon / cycle_length)`. -/
def Model.n_cycles (m : Model) : ℕ :=
(pyInt ((m.config.time_horizon : ℚ) / m.config.cycle_length)).toNat

/-- Lookup in the `self.states` dict `{s.name: s}`: on duplicate names the last
declaration wins, as in a Python dict comprehension. -/
def stateByName (states : List State) (nm : String) : Option State :=
states.reverse.find? (fun s => s.name = nm)

/-- Index of the last occurrence of `nm` from position `i` on (helper for the
`state_idx` dict, where later insertions win). -/
def lastIdxFrom (nm : String) : List String → ℕ → Option ℕ
| [], _ => none
| x :: xs, i =>
    match lastIdxFrom nm xs (i + 1) with
    | some j => some j
    | none => if x = nm then some i else none

/-- Lookup in the `state_idx` dict `{name: i}`: index of the last occurrence. -/
def stateIdx (names : List String) (nm : String) : Option ℕ :=
lastIdxFrom nm names 0

/-- The initial distribution of `FlexibleMarkovModel.__init__`: everyone in the first
state by default, else read from the supplied mapping in state order. (With an empty
state list and no explicit distribution the Python constructor raises `IndexError`;
theorems therefore assume at least one state.) -/
def initialDistribution (m : Model) (init : Option (PyDict ℚ)) : List ℚ :=
match init with
| none => (List.replicate m.n_states 0).set 0 (m.config.cohort_size : ℚ)
| some d => m.state_names.map (fun s => alGetD d s 0)

/-- Embedding of `_evaluate_probability_function` (flexible.py lines 197-216). -/
def evaluate_probability_function (ops : FloatOps) (cfg : Config) (func : String)
    (base : ℚ) (cycle : ℕ) : ℚ :=
if func = "linear_increase" then min 1 (base * (1 + 5/100 * cycle))
else if func = "exponential_increase" then min 1 (base * (102/100) ^ cycle)
else if func = "weibull" then
  let shape : ℚ := 3/2
  let scale : ℚ := 10
  let t : ℚ := cycle * cfg.cycle_length
  let hazard := shape / scale * ops.rpow (t / scale) (shape - 1)
  1 - ops.exp (-hazard)
else base

/-- Python truthiness of the optional `probability_function` string. -/
def probFnTruthy (pf : Option String) : Bool :=
match pf with
| none => false
| some s => s ≠ ""

/-- The fill loop of `build_transition_matrix`: write each declared transition's
probability at `(from_idx, to_idx)`, skipping unknown state names. -/
def fillMatrix (ops : FloatOps) (m : Model) (transitions : List Transition)
    (cycle : ℕ) : List (List ℚ) :=
transitions.foldl
  (fun mat tr =>
    match stateIdx m.state_names tr.from_state, stateIdx m.state_names tr.to_state with
    | some fi, some ti =>
        let prob :=
          if tr.time_dependent && probFnTruthy tr.probability_function then
            evaluate_probability_function ops m.config
              (tr.probability_function.getD "") tr.probability cycle
          else tr.probability
        mat.set fi ((mat.getD fi []).set ti prob)
    | _, _ => mat)
  (List.replicate m.n_states (List.replicate m.n_states 0))

/-- The row fix-up of `build_transition_matrix` (flexible.py lines 180-194): absorbing
states become a pure self-loop, rows summing below one get the residual on the
diagonal, rows summing above one are normalized. -/
def fixRow (isAbsorbing : Bool) (n i : ℕ) (row : List ℚ) : List ℚ :=
if isAbsorbing then (List.replicate n 0).set i 1
else if row.sum < 1 then row.set i (row.getD i 0 + (1 - row.sum))
else if 1 < row.sum then row.map (· / row.sum)
else row

/-- Whether state `i` of the model is absorbing (via the `self.states` dict). -/
def isAbsorbingAt (m : Model) (i : ℕ) : Bool :=
match stateByName m.states (m.state_names.getD i "") with
| some st => st.state_type = .absorbing
| none => false

/-- Embedding of `FlexibleMarkovModel.build_transition_matrix` (flexible.py lines
143-195): fill declared probabilities, then fix every row. -/
def build_transition_matrix (ops : FloatOps) (m : Model) (transitions : List Transition)
    (cycle : ℕ) : List (List ℚ) :=
let filled := fillMatrix ops m transitions cycle
(List.range m.n_states).map (fun i => fixRow (isAbsorbingAt m i) m.n_states i (filled.getD i []))

/-- The cohort-trace recurrence of `FlexibleMarkovModel.run_simulation` (flexible.py
lines 232-251): row 0 is the initial distribution and row `t` is
`trace[t-1] @ build_transition_matrix(transitions, t)`. Only the trace component of
`run_simulation` is embedded; the claims under study do not touch the payoff
accumulation. -/
def run_simulation_trace (ops : FloatOps) (m : Model) (init : Option (PyDict ℚ))
    (transitions : List Transition) : ℕ → List ℚ
| 0 => initialDistribution m init
| t + 1 =>
    vecMatMul m.n_states (run_simulation_trace ops m init transitions t)
      (build_transition_matrix ops m transitions (t + 1))

end Flexible

namespace Flexible

/-- After the fix-up, every row sums to exactly one and keeps its width. -/
theorem fixRow_sum (isAbs : Bool) (n i : ℕ) (row : List ℚ)
    (hlen : row.length = n) (hi : i < n) :
    (fixRow isAbs n i row).sum = 1 ∧ (fixRow isAbs n i row).length = n := by
  unfold fixRow
  by_cases habs : isAbs = true
  · rw [if_pos habs]
    have hi2 : i < (List.replicate n (0 : ℚ)).length := by
      rw [List.length_replicate]; exact hi
    constructor
    · rw [List.sum_set' (List.replicate n (0 : ℚ)) i 1, dif_pos hi2]
      simp
    · rw [List.length_set, List.length_replicate]
  · rw [if_neg habs]
    have hi3 : i < row.length := by rw [hlen]; exact hi
    by_cases hlt : row.sum < 1
    · rw [if_pos hlt]
      constructor
      · rw [List.sum_set' row i _, dif_pos hi3, List.getD_eq_getElem row 0 hi3]
        ring
      · rw [List.length_set, hlen]
    · rw [if_neg hlt]
      by_cases hgt : 1 < row.sum
      · rw [if_pos hgt]
        constructor
        · rw [sum_map_divQ]
          exact div_self (by linarith)
        · rw [List.length_map, hlen]
      · rw [if_neg hgt]
        exact ⟨le_antisymm (not_lt.mp hgt) (not_lt.mp hlt), hlen⟩

/-- One step of the fill loop keeps an `n × n` shape. -/
theorem fillStep_shape (n : ℕ) (mat : List (List ℚ)) (fi ti : ℕ) (prob : ℚ)
    (hl : mat.length = n) (hr : ∀ r ∈ mat, r.length = n) :
    (mat.set fi ((mat.getD fi []).set ti prob)).length = n ∧
      ∀ r ∈ mat.set fi ((mat.getD fi []).set ti prob), r.length = n := by
  constructor
  · rw [List.length_set, hl]
  · intro r hrm
    by_cases hfi : fi < mat.length
    · rcases List.mem_or_eq_of_mem_set hrm with h | h
      · exact hr r h
      · subst h
        rw [List.length_set, List.getD_eq_getElem mat [] hfi]
        exact hr _ (List.getElem_mem hfi)
    · rw [List.set_eq_of_length_le (not_lt.mp hfi)] at hrm
      exact hr r hrm

/-- The fill loop produces an `n × n` matrix. -/
theorem fillMatrix_shape (ops : FloatOps) (m : Model) (transitions : List Transition)
    (cycle : ℕ) :
    (fillMatrix ops m transitions cycle).length = m.n_states ∧
      ∀ r ∈ fillMatrix ops m transitions cycle, r.length = m.n_states := by
  unfold fillMatrix
  have base : (List.replicate m.n_states (List.replicate m.n_states (0 : ℚ))).length
        = m.n_states ∧
      ∀ r ∈ List.replicate m.n_states (List.replicate m.n_states (0 : ℚ)),
        r.length = m.n_states := by
    refine ⟨List.length_replicate _ _, ?_⟩
    intro r hr
    rw [List.eq_of_mem_replicate hr, List.length_replicate]
  revert base
  generalize List.replicate m.n_states (List.replicate m.n_states (0 : ℚ)) = mat0
  induction transitions generalizing mat0 with
  | nil => intro h; exact h
  | cons tr trs ih =>
    intro h
    simp only [List.foldl_cons]
    cases hfi : stateIdx m.state_names tr.from_state with
    | none => exact ih mat0 h
    | some fi =>
      cases hti : stateIdx m.state_names tr.to_state with
      | none => exact ih mat0 h
      | some ti =>
        exact ih _ (fillStep_shape m.n_states mat0 fi ti _ h.1 h.2)

end Flexible

namespace Flexible

/-- Every row of a built transition matrix sums to exactly one and has width
`n_states`; the matrix has `n_states` rows. -/
theorem build_transition_matrix_rows (ops : FloatOps) (m : Model)
    (transitions : List Transition) (cycle : ℕ) :
    (build_transition_matrix ops m transitions cycle).length = m.n_states ∧
      ∀ row ∈ build_transition_matrix ops m transitions cycle,
        row.length = m.n_states ∧ row.sum = 1 := by
  unfold build_transition_matrix
  have hfill := fillMatrix_shape ops m transitions cycle
  constructor
  · rw [List.length_map, List.length_range]
  · intro row hrow
    rcases List.mem_map.mp hrow with ⟨i, hi, hrow_eq⟩
    have hilt : i < m.n_states := List.mem_range.mp hi
    have hgetlen : ((fillMatrix ops m transitions cycle).getD i []).length = m.n_states := by
      have hi2 : i < (fillMatrix ops m transitions cycle).length := by
        rw [hfill.1]; exact hilt
      rw [List.getD_eq_getElem _ [] hi2]
      exact hfill.2 _ (List.getElem_mem hi2)
    have h := fixRow_sum (isAbsorbingAt m i) m.n_states i
      ((fillMatrix ops m transitions cycle).getD i []) hgetlen hilt
    rw [← hrow_eq]
    exact ⟨h.2, h.1⟩

/-- The initial distribution is a vector of width `n_states`. -/
theorem initialDistribution_length (m : Model) (init : Option (PyDict ℚ)) :
    (initialDistribution m init).length = m.n_states := by
  unfold initialDistribution
  cases init with
  | none => rw [List.length_set, List.length_replicate]
  | some d =>
    rw [List.length_map]
    unfold Model.state_names Model.n_states
    rw [List.length_map]

/-- With at least one state, the default initial distribution sums to the cohort
size (everyone starts in the first declared state). -/
theorem initialDistribution_default_sum (m : Model) (hne : m.states ≠ []) :
    (initialDistribution m none).sum = (m.config.cohort_size : ℚ) := by
  unfold initialDistribution
  have hpos : 0 < m.n_states := by
    unfold Model.n_states
    exact List.length_pos.mpr hne
  have h0 : (0 : ℕ) < (List.replicate m.n_states (0 : ℚ)).length := by
    rw [List.length_replicate]; exact hpos
  rw [List.sum_set' _ 0 _, dif_pos h0]
  simp

/-- Every trace row keeps the width `n_states` and total mass of the initial
distribution. -/
theorem run_simulation_trace_sum (ops : FloatOps) (m : Model)
    (init : Option (PyDict ℚ)) (transitions : List Transition) (t : ℕ) :
    (run_simulation_trace ops m init transitions t).sum
        = (initialDistribution m init).sum ∧
      (run_simulation_trace ops m init transitions t).length = m.n_states := by
  induction t with
  | zero => exact ⟨rfl, initialDistribution_length m init⟩
  | succ t ih =>
    have hrows := build_transition_matrix_rows ops m transitions (t + 1)
    have h := vecMatMul_sum m.n_states (run_simulation_trace ops m init transitions t)
      (build_transition_matrix ops m transitions (t + 1))
      (by rw [ih.2, hrows.1])
      (fun r hr => hrows.2 r hr)
    exact ⟨by rw [run_simulation_trace, h.1, ih.1], by rw [run_simulation_trace, h.2]⟩

end Flexible

/-- C1: every transition matrix built by the flexible engine is row-stochastic — each
row sums to exactly 1 (hence certainly within the 1e-9 floating tolerance), with
absorbing states forced to a self-loop, deficient rows completed on the diagonal and
excessive rows normalized — and consequently every row of a simulation's cohort trace
has the same total as the initial distribution, which by default is the cohort size. -/
theorem C1_row_stochastic_conservation :
    (∀ (ops : Flexible.FloatOps) (m : Flexible.Model)
        (transitions : List Flexible.Transition) (cycle : ℕ),
      ∀ row ∈ Flexible.build_transition_matrix ops m transitions cycle,
        row.sum = 1 ∧ |row.sum - 1| ≤ 1 / 10 ^ 9) ∧
    (∀ (ops : Flexible.FloatOps) (m : Flexible.Model) (init : Option (PyDict ℚ))
        (transitions : List Flexible.Transition) (t : ℕ),
      (Flexible.run_simulation_trace ops m init transitions t).sum
        = (Flexible.initialDistribution m init).sum) ∧
    (∀ m : Flexible.Model, m.states ≠ [] →
      (Flexible.initialDistribution m none).sum = (m.config.cohort_size : ℚ)) := by
  refine ⟨?_, ?_, ?_⟩
  · intro ops m transitions cycle row hrow
    have h := (Flexible.build_transition_matrix_rows ops m transitions cycle).2 row hrow
    refine ⟨h.2, ?_⟩
    rw [h.2]
    norm_num
  · intro ops m init transitions t
    exact (Flexible.run_simulation_trace_sum ops m init transitions t).1
  · exact Flexible.initialDistribution_default_sum

/-- A trivial implementation of the abstracted transcendental float routines, used to
instantiate theorems at concrete inputs. -/
def dummyOps : Flexible.FloatOps where
  exp := fun _ => 1
  rpow := fun _ _ => 1

/-- A concrete two-state model: `A` transient, `Dead` absorbing, horizon 3. -/
def m2 : Flexible.Model where
  config := { time_horizon := 3 }
  states := [{ name := "A" }, { name := "Dead", state_type := .absorbing, utility := 0 }]

/-- Concrete transitions for `m2`: `A → Dead` with probability 1/4. -/
def m2Trans : List Flexible.Transition :=
[{ from_state := "A", to_state := "Dead", probability := 1/4 }]

/-- Witness for C1 at the concrete model `m2`: the first built row is a member of the
matrix and sums to 1, the trace mass is conserved at cycle 2, and the default initial
distribution sums to the cohort size 1000. -/
theorem C1_row_stochastic_conservation_witness :
    ((Flexible.build_transition_matrix dummyOps m2 m2Trans 0).getD 0 []).sum = 1 ∧
    (Flexible.run_simulation_trace dummyOps m2 none m2Trans 2).sum
      = (Flexible.initialDistribution m2 none).sum ∧
    (Flexible.initialDistribution m2 none).sum = (1000 : ℚ) := by
  have hmem : (Flexible.build_transition_matrix dummyOps m2 m2Trans 0).getD 0 []
      ∈ Flexible.build_transition_matrix dummyOps m2 m2Trans 0 := by
    have hlen := (Flexible.build_transition_matrix_rows dummyOps m2 m2Trans 0).1
    have h0 : 0 < (Flexible.build_transition_matrix dummyOps m2 m2Trans 0).length := by
      rw [hlen]; norm_num [Flexible.Model.n_states, m2]
    rw [List.getD_eq_getElem _ [] h0]
    exact List.getElem_mem h0
  refine ⟨(C1_row_stochastic_conservation.1 dummyOps m2 m2Trans 0 _ hmem).1,
    C1_row_stochastic_conservation.2.1 dummyOps m2 none m2Trans 2,
    ?_⟩
  rw [C1_row_stochastic_conservation.2.2 m2 (by simp [m2])]
  rfl

namespace Flexible

/-- Scalar results of a flexible-model strategy (`StrategyResults` in flexible.py);
the per-state trace and per-cycle records are not consumed by the claims under study
and are omitted from the record. -/
structure StrategyResults where
  strategy_name : String
  total_cost : ℚ
  total_qalys : ℚ
  total_lys : ℚ
  undiscounted_cost : ℚ
  undiscounted_qalys : ℚ
deriving Repr, DecidableEq

/-- The ICER computation of `calculate_icer` (flexible.py lines 360-363): at
`delta_qaly == 0` the value is `+inf` when `delta_cost > 0` and `-inf` otherwise. -/
def icerValue (delta_cost delta_qaly : ℚ) : ICERValue :=
if delta_qaly = 0 then (if delta_cost > 0 then .posInf else .negInf)
else .fin (delta_cost / delta_qaly)

/-- ICER comparison record (`ICERResults` in flexible.py); `icer = none` encodes the
`abs(icer) == inf` case that the code maps to `None`. -/
structure ICERResults where
  comparator : String
  intervention : String
  delta_cost : ℚ
  delta_qaly : ℚ
  delta_ly : ℚ
  icer : Option ℚ
  icur : Option ℚ
  is_dominated : Bool
  is_extended_dominated : Bool
  quadrant : String
deriving Repr, DecidableEq

/-- Embedding of `FlexibleMarkovModel.calculate_icer` (flexible.py lines 327-381). -/
def calculate_icer (comparator intervention : StrategyResults) : ICERResults :=
let delta_cost := intervention.total_cost - comparator.total_cost
let delta_qaly := intervention.total_qalys - comparator.total_qalys
let delta_ly := intervention.total_lys - comparator.total_lys
let quadrant :=
  if 0 ≤ delta_cost ∧ 0 ≤ delta_qaly then "NE"
  else if delta_cost < 0 ∧ 0 ≤ delta_qaly then "SE"
  else if 0 ≤ delta_cost ∧ delta_qaly < 0 then "NW"
  else "SW"
{ comparator := comparator.strategy_name
  intervention := intervention.strategy_name
  delta_cost := delta_cost
  delta_qaly := delta_qaly
  delta_ly := delta_ly
  icer := match icerValue delta_cost delta_qaly with
          | .fin q => some q
          | _ => none
  icur := if delta_ly = 0 then none else some (delta_cost / delta_ly)
  is_dominated := quadrant = "NW"
  is_extended_dominated := false
  quadrant := quadrant }

end Flexible

/-- Concrete configuration for the C2 counterexample: one undiscounted cycle, a
cohort of one patient. -/
def c2Cfg : MarkovCore.Config :=
{ time_horizon := 1, discount_rate_costs := 0, discount_rate_outcomes := 0,
  cohort_size := 1 }

/-- Strategy A of the C2 counterexample: never progress or die, free drug. -/
def c2ParamsA : MarkovCore.Params :=
{ prob_s_to_p := 0, prob_s_to_d := 0, cost_drug := 0, cost_state_s := 0,
  cost_state_p := 0, utility_stable := 1 }

/-- Strategy B of the C2 counterexample: identical transitions, drug cost 1. -/
def c2ParamsB : MarkovCore.Params :=
{ prob_s_to_p := 0, prob_s_to_d := 0, cost_drug := 1, cost_state_s := 0,
  cost_state_p := 0, utility_stable := 1 }

/-- C2 counterexample: in the fixed 3-state model, `delta_effect = 0` with
`delta_cost < 0` classifies as `+infinity`, not `-infinity` as claimed. A full
`compare_strategies` run on two identical-transition strategies whose only difference
is a cheaper drug for strategy A yields `delta_cost = -1`, `delta_qaly = 0`, reported
`icer = None` and the internal classification `+inf` with `is_dominated = False`. -/
theorem C2_counterexample :
    MarkovCore.classifyICER (-1) 0 = (ICERValue.posInf, false) ∧
    (MarkovCore.compare_strategies c2Cfg c2ParamsA c2ParamsB).map
      (fun r => (r.delta_cost, r.delta_qaly, r.icer, r.is_dominated))
      = .ok (-1, 0, none, false) := by
  constructor
  · unfold MarkovCore.classifyICER
    norm_num
  · unfold MarkovCore.compare_strategies MarkovCore.build_transition_matrix
    norm_num [c2Cfg, c2ParamsA, c2ParamsB, MarkovCore.run_cohort_simulation,
      MarkovCore.Config.n_cycles, MarkovCore.calculate_outcomes,
      MarkovCore.classifyICER, MarkovCore.traceRow, vecMatMul, listAdd,
      List.range_succ, pyRound, roundHalfEven, Except.map, Int.fract]

/-- C2 (amended): with `delta_effect = 0` neither comparison ever produces a finite
ICER. In the flexible model the classification is `+inf` for `delta_cost > 0` and
`-inf` otherwise, and the reported `icer` field is `None`; in the fixed 3-state model
the classification is always `+inf` regardless of the sign of `delta_cost` (reported
as `None`), and `is_dominated` holds exactly when `delta_cost > 0`. -/
theorem C2_icer_at_zero_delta_effect :
    (∀ dc dq : ℚ, dq = 0 →
      MarkovCore.classifyICER dc dq = (ICERValue.posInf, decide (dc > 0))) ∧
    (∀ dc dq : ℚ, dq = 0 →
      Flexible.icerValue dc dq
        = (if dc > 0 then ICERValue.posInf else ICERValue.negInf)) ∧
    (∀ comp interv : Flexible.StrategyResults,
      interv.total_qalys = comp.total_qalys →
        (Flexible.calculate_icer comp interv).icer = none) := by
  refine ⟨?_, ?_, ?_⟩
  · intro dc dq h
    subst h
    unfold MarkovCore.classifyICER
    rw [if_pos rfl]
  · intro dc dq h
    subst h
    unfold Flexible.icerValue
    rw [if_pos rfl]
  · intro comp interv h
    have h0 : interv.total_qalys - comp.total_qalys = 0 := by rw [h, sub_self]
    unfold Flexible.calculate_icer
    simp only [Flexible.icerValue, h0, if_true, eq_self_iff_true]
    by_cases hdc : interv.total_cost - comp.total_cost > 0
    · simp [hdc]
    · simp [hdc]

/-- Witness for C2 at concrete inputs: `delta_cost = 5 > 0` gives `+inf` and
dominated in the fixed model; `delta_cost = -3` gives `-inf` in the flexible model;
and a concrete flexible comparison with equal QALYs reports `icer = None`. -/
theorem C2_icer_at_zero_delta_effect_witness :
    MarkovCore.classifyICER 5 0 = (ICERValue.posInf, decide ((5 : ℚ) > 0)) ∧
    Flexible.icerValue (-3) 0
      = (if (-3 : ℚ) > 0 then ICERValue.posInf else ICERValue.negInf) ∧
    (Flexible.calculate_icer
      { strategy_name := "SOC", total_cost := 10, total_qalys := 2, total_lys := 3,
        undiscounted_cost := 10, undiscounted_qalys := 2 }
      { strategy_name := "New", total_cost := 7, total_qalys := 2, total_lys := 3,
        undiscounted_cost := 7, undiscounted_qalys := 2 }).icer = none :=
⟨C2_icer_at_zero_delta_effect.1 5 0 rfl,
 C2_icer_at_zero_delta_effect.2.1 (-3) 0 rfl,
 C2_icer_at_zero_delta_effect.2.2 _ _ rfl⟩

/-- A model with two transient states, used for C5: state `B` has no declared
outgoing transitions, so its filled row sums to exactly 0. -/
def m5 : Flexible.Model where
  config := { time_horizon := 2 }
  states := [{ name := "A" }, { name := "B" }]

/-- Transitions of `m5`: only `A → B` with probability 1/2. -/
def m5Trans : List Flexible.Transition :=
[{ from_state := "A", to_state := "B", probability := 1/2 }]

/-- C5 (amended): a non-absorbing state whose declared outgoing probabilities sum to
exactly 0 is not rejected; `build_transition_matrix` silently assigns it a self-loop
of probability 1 through the residual rule (the deficient row is completed on the
diagonal), and the resulting row sums to 1. -/
theorem C5_zero_row_silent_selfloop (ops : Flexible.FloatOps) (m : Flexible.Model)
    (transitions : List Flexible.Transition) (cycle i : ℕ)
    (hi : i < m.n_states)
    (habs : Flexible.isAbsorbingAt m i = false)
    (hzero : ((Flexible.fillMatrix ops m transitions cycle).getD i []).sum = 0) :
    (Flexible.build_transition_matrix ops m transitions cycle).getD i []
        = ((Flexible.fillMatrix ops m transitions cycle).getD i []).set i
            (((Flexible.fillMatrix ops m transitions cycle).getD i []).getD i 0 + 1) ∧
      ((Flexible.build_transition_matrix ops m transitions cycle).getD i []).sum = 1 := by
  have hfill := Flexible.fillMatrix_shape ops m transitions cycle
  have hrowlen : ((Flexible.fillMatrix ops m transitions cycle).getD i []).length
      = m.n_states := by
    have hi2 : i < (Flexible.fillMatrix ops m transitions cycle).length := by
      rw [hfill.1]; exact hi
    rw [List.getD_eq_getElem _ [] hi2]
    exact hfill.2 _ (List.getElem_mem hi2)
  have hbuild : (Flexible.build_transition_matrix ops m transitions cycle).getD i []
      = Flexible.fixRow (Flexible.isAbsorbingAt m i) m.n_states i
          ((Flexible.fillMatrix ops m transitions cycle).getD i []) := by
    unfold Flexible.build_transition_matrix
    have hlt : i < ((List.range m.n_states).map
        (fun j => Flexible.fixRow (Flexible.isAbsorbingAt m j) m.n_states j
          ((Flexible.fillMatrix ops m transitions cycle).getD j []))).length := by
      rw [List.length_map, List.length_range]; exact hi
    rw [List.getD_eq_getElem _ [] hlt, List.getElem_map]
    rw [List.getElem_range]
  constructor
  · rw [hbuild]
    unfold Flexible.fixRow
    rw [habs, if_neg (by simp), hzero, if_pos (by norm_num)]
    norm_num
  · rw [hbuild]
    exact (Flexible.fixRow_sum _ _ _ _ hrowlen hi).1

/-- Witness for C5 at the concrete model `m5`: state index 1 (`B`) is transient with
a zero declared row, and the built matrix silently gives it the self-loop row
`[0, 1]`. -/
theorem C5_zero_row_silent_selfloop_witness :
    (Flexible.build_transition_matrix dummyOps m5 m5Trans 0).getD 1 []
        = ((Flexible.fillMatrix dummyOps m5 m5Trans 0).getD 1 []).set 1
            (((Flexible.fillMatrix dummyOps m5 m5Trans 0).getD 1 []).getD 1 0 + 1) ∧
      ((Flexible.build_transition_matrix dummyOps m5 m5Trans 0).getD 1 []).sum = 1 :=
C5_zero_row_silent_selfloop dummyOps m5 m5Trans 0 1
  (by norm_num [Flexible.Model.n_states, m5])
  (by simp [Flexible.isAbsorbingAt, Flexible.stateByName, Flexible.Model.state_names,
    m5, List.find?])
  (by simp [Flexible.fillMatrix, m5, m5Trans, Flexible.stateIdx, Flexible.lastIdxFrom,
    Flexible.Model.state_names, Flexible.Model.n_states, List.replicate, List.set])

/-- C5 counterexample: the invoking analysis does not fail on a configuration with a
zero-probability row — on the two-state model `m5`, whose state `B` declares no
outgoing transitions, `build_transition_matrix` returns the well-formed matrix
`[[1/2, 1/2], [0, 1]]` instead of raising a descriptive error (the embedded builder
is total because the Python code path contains no raise). -/
theorem C5_counterexample :
    Flexible.build_transition_matrix dummyOps m5 m5Trans 0 = [[1/2, 1/2], [0, 1]] := by
  simp [Flexible.build_transition_matrix, Flexible.fillMatrix, m5, m5Trans,
    Flexible.stateIdx, Flexible.lastIdxFrom, Flexible.Model.state_names,
    Flexible.Model.n_states, Flexible.fixRow, Flexible.isAbsorbingAt,
    Flexible.stateByName, List.find?, List.replicate, List.range_succ,
    List.set, Flexible.probFnTruthy]
  norm_num

/-- With zero progression and death probabilities from Stable, one application of the
transition matrix fixes the distribution concentrated in Stable. -/
theorem vecMatMul_stable (a b c : ℚ) :
    vecMatMul 3 [c, 0, 0] [[1, 0, 0], [0, a, b], [0, 0, 1]] = [c, 0, 0] := by
  simp [vecMatMul, listAdd]

/-- The whole trace stays concentrated in Stable under the zero-progression matrix. -/
theorem traceRow_stable (a b c : ℚ) (t : ℕ) :
    MarkovCore.traceRow [[1, 0, 0], [0, a, b], [0, 0, 1]] [c, 0, 0] t = [c, 0, 0] := by
  induction t with
  | zero => rfl
  | succ t ih => rw [MarkovCore.traceRow, ih, vecMatMul_stable]

/-- C6 (amended): with progression and death probabilities 0 and discount rates 0,
the whole cohort stays in Stable at every cycle of the trace, and the reported
`total_qalys` — a per-patient quantity, since `calculate_outcomes` divides the
accumulated QALY total by the cohort size before rounding — equals
`utility_stable × n_cycles` (rounded at 4 decimals); equivalently the accumulated
total before division equals `cohort_size × utility_stable × n_cycles`. -/
theorem C6_zero_progression (cfg : MarkovCore.Config) (p : MarkovCore.Params)
    (hsp : p.prob_s_to_p = 0) (hsd : p.prob_s_to_d = 0)
    (hdo : cfg.discount_rate_outcomes = 0) (hc : cfg.cohort_size ≠ 0) :
    ∃ M, MarkovCore.build_transition_matrix p = .ok M ∧
      (∀ row ∈ MarkovCore.run_cohort_simulation cfg M,
        row = [(cfg.cohort_size : ℚ), 0, 0]) ∧
      (MarkovCore.calculate_outcomes cfg (MarkovCore.run_cohort_simulation cfg M)
          p).total_qalys
        = pyRound (p.utility_stable * cfg.n_cycles) 4 := by
  refine ⟨[[1, 0, 0], [0, 1 - p.prob_p_to_d, p.prob_p_to_d], [0, 0, 1]], ?_, ?_, ?_⟩
  · unfold MarkovCore.build_transition_matrix
    rw [hsp, hsd]
    norm_num
  · intro row hrow
    rcases List.mem_map.mp hrow with ⟨t, _, hrow_eq⟩
    rw [← hrow_eq, traceRow_stable]
  · have htrace : ∀ k : ℕ, k < cfg.n_cycles →
        (MarkovCore.run_cohort_simulation cfg
          [[1, 0, 0], [0, 1 - p.prob_p_to_d, p.prob_p_to_d], [0, 0, 1]]).getD (k + 1) []
          = [(cfg.cohort_size : ℚ), 0, 0] := by
      intro k hk
      unfold MarkovCore.run_cohort_simulation
      rw [List.getD_eq_getElem?_getD, List.getElem?_map,
        List.getElem?_range (by omega : k + 1 < cfg.n_cycles + 1)]
      simp [traceRow_stable]
    simp only [MarkovCore.calculate_outcomes]
    have hmap : (List.range cfg.n_cycles).map
        (fun k =>
          (((MarkovCore.run_cohort_simulation cfg
              [[1, 0, 0], [0, 1 - p.prob_p_to_d, p.prob_p_to_d], [0, 0, 1]]).getD
                (k + 1) []).getD 0 0 * p.utility_stable +
            ((MarkovCore.run_cohort_simulation cfg
              [[1, 0, 0], [0, 1 - p.prob_p_to_d, p.prob_p_to_d], [0, 0, 1]]).getD
                (k + 1) []).getD 1 0 * p.utility_progression) *
            (1 / (1 + cfg.discount_rate_outcomes) ^ (k + 1)))
        = List.replicate cfg.n_cycles ((cfg.cohort_size : ℚ) * p.utility_stable) := by
      have hconst := List.map_const (List.range cfg.n_cycles)
        ((cfg.cohort_size : ℚ) * p.utility_stable)
      rw [List.length_range] at hconst
      rw [← hconst]
      apply List.map_congr_left
      intro k hk
      rw [htrace k (List.mem_range.mp hk), hdo]
      norm_num [Function.const]
    rw [hmap, List.sum_replicate, nsmul_eq_mul]
    have harg : (cfg.n_cycles : ℚ) * ((cfg.cohort_size : ℚ) * p.utility_stable) /
        (cfg.cohort_size : ℚ) = p.utility_stable * cfg.n_cycles := by
      field_simp
      ring
    rw [harg]

/-- Concrete configuration for C6: one undiscounted cycle, cohort of two patients. -/
def c6Cfg : MarkovCore.Config :=
{ time_horizon := 1, discount_rate_costs := 0, discount_rate_outcomes := 0,
  cohort_size := 2 }

/-- Concrete parameters for C6: zero progression and death, utility 1. -/
def c6Params : MarkovCore.Params :=
{ prob_s_to_p := 0, prob_s_to_d := 0, utility_stable := 1 }

/-- C6 counterexample: on a cohort of 2 with utility 1 over 1 cycle, the reported
`total_qalys` is 1 (the per-patient value), while the claim's formula
`cohort_size × utility_stable × n_cycles` evaluates to 2 — the claim as stated fails
because `calculate_outcomes` divides by the cohort size before reporting. -/
theorem C6_counterexample :
    (MarkovCore.build_transition_matrix c6Params).map
      (fun M => (MarkovCore.calculate_outcomes c6Cfg
        (MarkovCore.run_cohort_simulation c6Cfg M) c6Params).total_qalys)
      = .ok 1 ∧
    (c6Cfg.cohort_size : ℚ) * c6Params.utility_stable * c6Cfg.n_cycles = 2 ∧
    (1 : ℚ) ≠ 2 := by
  refine ⟨?_, ?_, by norm_num⟩
  · unfold MarkovCore.build_transition_matrix
    norm_num [c6Cfg, c6Params, MarkovCore.run_cohort_simulation,
      MarkovCore.Config.n_cycles, MarkovCore.calculate_outcomes, MarkovCore.traceRow,
      vecMatMul, listAdd, List.range_succ, pyRound, roundHalfEven, Except.map,
      Int.fract]
  · norm_num [c6Cfg, c6Params, MarkovCore.Config.n_cycles]

/-- Witness for C6 at the concrete configuration `c6Cfg`, `c6Params` (all hypotheses
hold with cohort size 2). -/
theorem C6_zero_progression_witness :
    ∃ M, MarkovCore.build_transition_matrix c6Params = .ok M ∧
      (∀ row ∈ MarkovCore.run_cohort_simulation c6Cfg M,
        row = [(c6Cfg.cohort_size : ℚ), 0, 0]) ∧
      (MarkovCore.calculate_outcomes c6Cfg (MarkovCore.run_cohort_simulation c6Cfg M)
          c6Params).total_qalys
        = pyRound (c6Params.utility_stable * c6Cfg.n_cycles) 4 :=
C6_zero_progression c6Cfg c6Params rfl rfl rfl (by norm_num [c6Cfg])

/-- Character-list prefix test, for the embedding of Python's substring operator. -/
def isPrefB : List Char → List Char → Bool
| [], _ => true
| _ :: _, [] => false
| a :: as, b :: bs => a == b && isPrefB as bs

/-- Character-list substring test (`pat in s` on Python strings). -/
def isSubB (pat : List Char) : List Char → Bool
| [] => isPrefB pat []
| b :: bs => isPrefB pat (b :: bs) || isSubB pat bs

/-- Split a character list on a separator (Python `str.split('/')`). -/
def splitOnChar (c : Char) : List Char → List (List Char)
| [] => [[]]
| x :: xs =>
    let r := splitOnChar c xs
    if x = c then [] :: r
    else
      match r with
      | [] => [[x]]
      | g :: gs => (x :: g) :: gs

/-- Python `path.split('/')`. -/
def splitSlash (s : String) : List String :=
(splitOnChar '/' s.toList).map List.asString

/-- Python `'/'.join(parts)`. -/
def joinSlash : List String → String
| [] => ""
| [s] => s
| s :: rest => s ++ "/" ++ joinSlash rest

namespace DTree

/-- Node kinds (`NodeType` in decision_tree/core.py). -/
inductive NodeType : Type
| decision
| chance
| terminal
deriving DecidableEq, Repr

/-- Terminal payoff (`Payoff` in decision_tree/core.py). -/
structure Payoff where
  cost : ℚ := 0
  effectiveness : ℚ := 0
  utility : ℚ := 0
deriving Repr, DecidableEq

/-- A decision-tree node (`TreeNode`): identifier, display name, kind, optional
chance probability, optional terminal payoff, and owned children. The mutable
roll-back annotations (`expected_cost` …) are recomputed functionally here. -/
inductive DNode : Type
| mk : String → String → NodeType → Option ℚ → Option Payoff → List DNode → DNode
deriving Repr

/-- Node identifier. -/
def DNode.id : DNode → String
| .mk i _ _ _ _ _ => i

/-- Node display name. -/
def DNode.name : DNode → String
| .mk _ n _ _ _ _ => n

/-- Node kind. -/
def DNode.node_type : DNode → NodeType
| .mk _ _ t _ _ _ => t

/-- Chance probability, when declared. -/
def DNode.probability : DNode → Option ℚ
| .mk _ _ _ p _ _ => p

/-- Terminal payoff, when declared. -/
def DNode.payoff : DNode → Option Payoff
| .mk _ _ _ _ po _ => po

/-- Child nodes. -/
def DNode.children : DNode → List DNode
| .mk _ _ _ _ _ ch => ch

/-- Python comparison `nmb > best_nmb` where `best_nmb` starts at `-inf`
(modelled as `none`). -/
def nmbGt (x : ℚ) : Option ℚ → Bool
| none => true
| some b => x > b

/-- The decision-node selection loop: keep the first child strictly improving the
net monetary benefit, starting from `-inf`. -/
def bestByNmb (wtp : ℚ) : List (ℚ × ℚ) → Option (ℚ × ℚ)
| rs =>
  (rs.foldl
    (fun st r =>
      let nmb := r.2 * wtp - r.1
      if nmbGt nmb st.2 then (some r, some nmb) else st)
    ((none : Option (ℚ × ℚ)), (none : Option ℚ))).1

mutual

/-- Embedding of `DecisionTree.rollback` (decision_tree/core.py lines 203-268):
returns the `(expected_cost, expected_effectiveness)` pair of a node. Terminals
return their payoff; chance nodes take the probability-weighted average (with a
total-probability denominator replaced by 1 when it is 0); decision nodes pick the
child maximizing net monetary benefit. -/
def rollback (wtp : ℚ) : DNode → ℚ × ℚ
| .mk _ _ ty _ payoff children =>
  match ty with
  | .terminal =>
      (match payoff with
       | some po => (po.cost, po.effectiveness)
       | none => (0, 0))
  | .chance =>
      let rs := rollbackList wtp children
      let probs := children.map (fun c => c.probability.getD 0)
      let total0 := probs.sum
      let total := if total0 = 0 then 1 else total0
      ((List.zipWith (fun r p => r.1 * p / total) rs probs).sum,
       (List.zipWith (fun r p => r.2 * p / total) rs probs).sum)
  | .decision =>
      let rs := rollbackList wtp children
      match bestByNmb wtp rs with
      | some r => r
      | none => (0, 0)

/-- Roll back every node of a list, in order. -/
def rollbackList (wtp : ℚ) : List DNode → List (ℚ × ℚ)
| [] => []
| c :: cs => rollback wtp c :: rollbackList wtp cs

end

/-- One strategy line of `get_strategy_results` as recorded by the sensitivity
sweep (name, expected cost, expected effectiveness; the terminal-outcome listing of
`StrategyResult` is not consumed by the claims under study). -/
structure StrategyEntry where
  name : String
  cost : ℚ
  effectiveness : ℚ
deriving Repr, DecidableEq

/-- Embedding of `DecisionTree.get_strategy_results` (lines 270-292): one entry per
child of a decision root, each re-rolled-back; non-decision roots give `[]`. -/
def get_strategy_results (wtp : ℚ) (root : DNode) : List StrategyEntry :=
match root.node_type with
| .decision =>
    root.children.map (fun c => ⟨c.name, (rollback wtp c).1, (rollback wtp c).2⟩)
| _ => []

/-- Python's match for the target node: `node.name == node_name or node_name in
node.name`. -/
def matchName (pat : String) (nm : String) : Bool :=
nm == pat || isSubB pat.toList nm.toList

mutual

/-- First node (in preorder, the insertion order of `self.nodes` for trees built by
`build_from_dict`) whose name matches the pattern. -/
def getFirst (pat : String) : DNode → Option DNode
| .mk i nm ty pr po ch =>
    if matchName pat nm then some (.mk i nm ty pr po ch)
    else getFirstList pat ch

/-- First matching node over a list of subtrees. -/
def getFirstList (pat : String) : List DNode → Option DNode
| [] => none
| c :: cs =>
    match getFirst pat c with
    | some n => some n
    | none => getFirstList pat cs

end

mutual

/-- Update the first preorder node matching the pattern; the flag reports whether a
match was found. -/
def setFirst (pat : String) (f : DNode → DNode) : DNode → DNode × Bool
| .mk i nm ty pr po ch =>
    if matchName pat nm then (f (.mk i nm ty pr po ch), true)
    else
      let r := setFirstList pat f ch
      (.mk i nm ty pr po r.1, r.2)

/-- Update the first match within a list of subtrees. -/
def setFirstList (pat : String) (f : DNode → DNode) : List DNode → List DNode × Bool
| [] => ([], false)
| c :: cs =>
    match setFirst pat f c with
    | (c', true) => (c' :: cs, true)
    | (_, false) =>
        let r := setFirstList pat f cs
        (c :: r.1, r.2)

end

/-- Write one attribute of a node (`probability`, `cost` or `effectiveness`). -/
def writeAttr (attrName : String) (v : ℚ) : DNode → DNode
| .mk i nm ty pr po ch =>
  if attrName = "probability" then .mk i nm ty (some v) po ch
  else if attrName = "cost" then
    .mk i nm ty pr (po.map (fun p => { p with cost := v })) ch
  else if attrName = "effectiveness" then
    .mk i nm ty pr (po.map (fun p => { p with effectiveness := v })) ch
  else .mk i nm ty pr po ch

/-- Read one attribute of a node. -/
def readAttr (attrName : String) (n : DNode) : Option ℚ :=
if attrName = "probability" then n.probability
else if attrName = "cost" then n.payoff.map Payoff.cost
else if attrName = "effectiveness" then n.payoff.map Payoff.effectiveness
else none

/-- Python truthy `or` on two optional floats: `a or b` returns `b` whenever `a` is
`None` or `0`. -/
def pyOrOpt (a b : Option ℚ) : Option ℚ :=
match a with
| none => b
| some v => if v = 0 then b else a

/-- One iteration of the sweep body of `one_way_sensitivity` (lines 400-410): update
`original_value` through Python's `or` idiom, then write the swept value — but only
for the three known attributes, and for `cost`/`effectiveness` only when the target
carries a payoff. -/
def sweepStep (attrName pat : String) (v : ℚ) (origv : Option ℚ) (tree : DNode) :
    Option ℚ × DNode :=
match getFirst pat tree with
| none => (origv, tree)
| some target =>
  if attrName = "probability" then
    (pyOrOpt origv target.probability, (setFirst pat (writeAttr attrName v) tree).1)
  else if (attrName = "cost" || attrName = "effectiveness") && target.payoff.isSome then
    (pyOrOpt origv (readAttr attrName target),
     (setFirst pat (writeAttr attrName v) tree).1)
  else (origv, tree)

/-- Result entry of the sweep: the parameter value and the strategy results recorded
after re-running roll-back. -/
structure SweepPoint where
  parameter_value : ℚ
  strategies : List StrategyEntry
deriving Repr, DecidableEq

/-- Output of `one_way_sensitivity`: the swept parameter path, its range and the
recorded points (`none` models the error dictionary for an unknown node). -/
structure OWSResult where
  parameter : String
  low : ℚ
  high : ℚ
  results : List SweepPoint
deriving Repr, DecidableEq

/-- The restoration epilogue of `one_way_sensitivity` (lines 428-435): write the
remembered `original_value` back, under the same attribute guards. -/
def restoreStep (attrName pat : String) (origv : Option ℚ) (tree : DNode) : DNode :=
match origv with
| none => tree
| some v =>
  match getFirst pat tree with
  | none => tree
  | some target =>
    if attrName = "probability" then (setFirst pat (writeAttr attrName v) tree).1
    else if (attrName = "cost" || attrName = "effectiveness")
        && target.payoff.isSome then
      (setFirst pat (writeAttr attrName v) tree).1
    else tree

/-- Embedding of `DecisionTree.one_way_sensitivity` (decision_tree/core.py lines
361-441): parse the parameter path, locate the target node, sweep `n_steps` linearly
spaced values recording re-rolled-back strategy results, then restore the remembered
original value. Returns the final tree together with the result (or `none` for the
unknown-node error dictionary). -/
def one_way_sensitivity (wtp : ℚ) (tree : DNode) (parameter_path : String)
    (low_value high_value : ℚ) (n_steps : ℕ) : DNode × Option OWSResult :=
let values := npLinspace low_value high_value n_steps
let parts := splitSlash parameter_path
let node_name := joinSlash parts.dropLast
let attrName := parts.getLastD ""
match getFirst node_name tree with
| none => (tree, none)
| some _ =>
  let final := values.foldl
    (fun st v =>
      let s := sweepStep attrName node_name v st.1 st.2.1
      (s.1, s.2, st.2.2 ++ [SweepPoint.mk v (get_strategy_results wtp s.2)]))
    ((none : Option ℚ), tree, ([] : List SweepPoint))
  let restored := restoreStep attrName node_name final.1 final.2.1
  (restored, some ⟨parameter_path, low_value, high_value, final.2.2⟩)

end DTree

/-- Concrete decision tree for C4: a decision root, one chance strategy, and a
`Success` terminal whose declared probability is 0 (the falsy original value). -/
def c4Tree : DTree.DNode :=
.mk "n0" "Treatment Decision" .decision none none
  [.mk "n1" "New Treatment" .chance none none
    [.mk "n2" "Success" .terminal (some 0)
       (some { cost := 100, effectiveness := 1 }) [],
     .mk "n3" "Failure" .terminal (some 1)
       (some { cost := 200, effectiveness := 1/2 }) []]]

/-- Parsing of the C4 parameter path. -/
theorem c4_parse : splitSlash "Success/probability" = ["Success", "probability"] := by
  decide

/-- Node-name component of the C4 path. -/
theorem c4_nodeName : joinSlash (["Success", "probability"].dropLast) = "Success" := by
  decide

/-- Attribute component of the C4 path. -/
theorem c4_attr : ["Success", "probability"].getLastD "" = "probability" := by
  decide

/-- The root's name does not match the target pattern. -/
theorem c4_mn_root : DTree.matchName "Success" "Treatment Decision" = false := by
  decide

/-- The strategy node's name does not match the target pattern. -/
theorem c4_mn_strategy : DTree.matchName "Success" "New Treatment" = false := by
  decide

/-- The `Success` node matches the target pattern. -/
theorem c4_mn_success : DTree.matchName "Success" "Success" = true := by
  decide

/-- C4: sweeping `Success/probability` over `[1/2, 1]` (2 steps) on a node whose
original probability is 0 leaves the node at probability 1/2 after the sweep —
`original_value = original_value or target_node.probability` treats the original 0
as falsy, so the remembered value is overwritten by the first swept value and the
restoration writes 1/2 back instead of 0. -/
theorem C4_restore_bug :
    ((DTree.getFirst "Success" c4Tree).map DTree.DNode.probability)
        = some (some 0) ∧
    ((DTree.getFirst "Success"
        (DTree.one_way_sensitivity 30000 c4Tree "Success/probability"
          (1/2) 1 2).1).map DTree.DNode.probability)
        = some (some (1/2)) ∧
    (some (1/2) : Option ℚ) ≠ some 0 := by
  refine ⟨?_, ?_, by norm_num⟩
  · simp [c4Tree, DTree.getFirst, DTree.getFirstList, c4_mn_root, c4_mn_strategy,
      c4_mn_success, DTree.DNode.probability]
  · simp only [DTree.one_way_sensitivity, c4_parse, c4_nodeName, c4_attr]
    norm_num [c4Tree, npLinspace, List.range_succ, DTree.getFirst,
      DTree.getFirstList, c4_mn_root, c4_mn_strategy, c4_mn_success,
      DTree.sweepStep, DTree.setFirst, DTree.setFirstList, DTree.writeAttr,
      DTree.readAttr, DTree.pyOrOpt, DTree.restoreStep,
      DTree.get_strategy_results, DTree.rollback, DTree.rollbackList,
      DTree.bestByNmb, DTree.nmbGt, DTree.DNode.probability, DTree.DNode.name,
      DTree.DNode.children, DTree.DNode.payoff, DTree.DNode.node_type]

namespace BIA

/-- Population growth kinds (`PopulationGrowthType`). -/
inductive GrowthType : Type
| constant
| linear
| exponential
deriving DecidableEq, Repr

/-- Market uptake kinds (`MarketUptakeType`). -/
inductive UptakeType : Type
| linear
| s_curve
| immediate
| custom
deriving DecidableEq, Repr

/-- Target-population configuration (`PopulationConfig` in budget_impact/core.py). -/
structure PopulationConfig where
  total_population : ℕ
  prevalence_rate : ℚ
  incidence_rate : ℚ
  diagnosis_rate : ℚ := 1
  treatment_eligible_rate : ℚ := 1
  growth_type : GrowthType := .constant
  annual_growth_rate : ℚ := 0
deriving Repr

/-- A treatment option (`TreatmentOption`). -/
structure TreatmentOption where
  name : String
  annual_cost : ℚ
  administration_cost : ℚ := 0
  monitoring_cost : ℚ := 0
  adverse_event_cost : ℚ := 0
  discontinuation_rate : ℚ := 0
deriving Repr

/-- Total annual per-patient cost (`total_annual_cost` property). -/
def TreatmentOption.total_annual_cost (t : TreatmentOption) : ℚ :=
t.annual_cost + t.administration_cost + t.monitoring_cost + t.adverse_event_cost

/-- Analysis configuration (`BIAConfig`). -/
structure Config where
  time_horizon : ℕ := 5
  perspective : String := "payer"
  currency : String := "EUR"
  discount_rate : ℚ := 0
  include_indirect_costs : Bool := false
deriving Repr

/-- One year's market-share scenario (`MarketShareScenario`). -/
structure Scenario where
  year : ℕ
  shares : PyDict ℚ
deriving Repr, DecidableEq

/-- The `BudgetImpactModel` instance. -/
structure ModelB where
  config : Config
  population : PopulationConfig
  treatments : List TreatmentOption
deriving Repr

/-- Lookup in the `self.treatments` dict `{t.name: t}` (last declaration wins). -/
def treatLookup (ts : List TreatmentOption) (nm : String) : Option TreatmentOption :=
ts.reverse.find? (fun t => t.name = nm)

/-- Embedding of `calculate_eligible_population` (lines 126-146): grown population
times prevalence, diagnosis and eligibility rates, truncated by `int()`. -/
def calculate_eligible_population (m : ModelB) (year : ℕ) : ℤ :=
let growth_factor : ℚ :=
  match m.population.growth_type with
  | .linear => 1 + m.population.annual_growth_rate * year
  | .exponential => (1 + m.population.annual_growth_rate) ^ year
  | .constant => 1
let total_pop := (m.population.total_population : ℚ) * growth_factor
let prevalent_cases := total_pop * m.population.prevalence_rate
pyInt (prevalent_cases * m.population.diagnosis_rate *
  m.population.treatment_eligible_rate)

/-- The displaced-share redistribution loop of `generate_market_shares` (lines
198-203). -/
def displaceShares (current_shares : PyDict ℚ) (displaced : List String)
    (new_share total_displaced : ℚ) (shares : PyDict ℚ) : PyDict ℚ :=
displaced.foldl
  (fun sh t =>
    let original := alGetD current_shares t 0
    let proportion := original / total_displaced
    alSet sh t (max 0 (original - new_share * proportion)))
  shares

/-- Embedding of `generate_market_shares` (lines 148-212): year 0 keeps current
shares, later years give the new treatment its uptake-curve share, displace the
others proportionally, and renormalize when the total is positive. -/
def generate_market_shares (ops : Flexible.FloatOps) (m : ModelB)
    (new_treatment : String) (uptake_type : UptakeType) (max_share : ℚ)
    (current_shares : PyDict ℚ) (displaced_treatments : Option (List String)) :
    List Scenario :=
let n_years := m.config.time_horizon
let displaced := displaced_treatments.getD
  ((alKeys current_shares).filter (fun t => t ≠ new_treatment))
Scenario.mk 0 current_shares ::
  (List.range' 1 n_years).map (fun (year : ℕ) =>
    let new_share : ℚ :=
      match uptake_type with
      | .linear => min max_share (max_share * year / n_years)
      | .s_curve =>
          max_share / (1 + ops.exp (-(3/2) * ((year : ℚ) - (n_years : ℚ) / 2)))
      | .immediate => max_share
      | .custom => max_share * year / n_years
    let shares := alSet current_shares new_treatment new_share
    let total_displaced := (displaced.map (fun t => alGetD current_shares t 0)).sum
    let shares :=
      if 0 < total_displaced then
        displaceShares current_shares displaced new_share total_displaced shares
      else shares
    let total := alValsSum shares
    let shares :=
      if 0 < total then shares.map (fun p => (p.1, p.2 / total)) else shares
    Scenario.mk year shares)

/-- Annual cost of one scenario's share mix (the inner loops of `calculate_costs`,
lines 240-261): patients are `int(eligible_pop * share)`, unknown treatment names
are skipped. -/
def scenario_cost (m : ModelB) (sh : PyDict ℚ) (elig : ℤ) : ℚ :=
(sh.map (fun p =>
  match treatLookup m.treatments p.1 with
  | some t => (pyInt ((elig : ℚ) * p.2) : ℚ) * t.total_annual_cost
  | none => 0)).sum

/-- Python `max(l, key=abs)`: first element of maximal absolute value. -/
def peakByAbs (l : List ℚ) : ℚ :=
l.foldl (fun best x => if |best| < |x| then x else best) (l.headD 0)

/-- Results of `calculate_costs` (`BIAResults`); the per-treatment cost and patient
breakdowns are not consumed by the claims under study and are omitted. -/
structure Results where
  yearly_costs_current : List ℚ
  yearly_costs_new : List ℚ
  yearly_budget_impact : List ℚ
  total_budget_impact : ℚ
  cumulative_budget_impact : List ℚ
  average_annual_impact : ℚ
  peak_annual_impact : ℚ
  peak_year : ℕ
deriving Repr, DecidableEq

/-- Embedding of `calculate_costs` (lines 214-291): yearly current/new costs, their
difference, the running cumulative impact, and the summary metrics. -/
def calculate_costs (m : ModelB) (scenarios_current scenarios_new : List Scenario) :
    Results :=
let n_years := m.config.time_horizon
let years := List.range (n_years + 1)
let cost_cur := fun (y : ℕ) =>
  scenario_cost m ((scenarios_current.getD y ⟨y, []⟩).shares)
    (calculate_eligible_population m y)
let cost_new := fun (y : ℕ) =>
  scenario_cost m ((scenarios_new.getD y ⟨y, []⟩).shares)
    (calculate_eligible_population m y)
let impacts := years.map (fun y => cost_new y - cost_cur y)
let total := impacts.sum
let peak := peakByAbs impacts
{ yearly_costs_current := years.map cost_cur
  yearly_costs_new := years.map cost_new
  yearly_budget_impact := impacts
  total_budget_impact := total
  cumulative_budget_impact := years.map (fun y => ((years.take (y + 1)).map
    (fun z => cost_new z - cost_cur z)).sum)
  average_annual_impact := total / (n_years + 1 : ℕ)
  peak_annual_impact := peak
  peak_year := impacts.findIdx (fun x => x = peak) }

/-- Embedding of the scenario construction and cost evaluation of
`run_budget_impact_analysis` (lines 294-414, minus the parameter-dictionary
parsing): one frozen current-shares scenario per year against the generated
new-treatment scenarios. -/
def run_budget_impact (ops : Flexible.FloatOps) (cfg : Config)
    (pop : PopulationConfig) (treatments : List TreatmentOption)
    (current_shares : PyDict ℚ) (new_treatment_name : String) (max_share : ℚ)
    (uptake : UptakeType) : Results :=
let m := ModelB.mk cfg pop treatments
let scenarios_current :=
  (List.range (cfg.time_horizon + 1)).map (fun y => Scenario.mk y current_shares)
let scenarios_new :=
  generate_market_shares ops m new_treatment_name uptake max_share current_shares none
calculate_costs m scenarios_current scenarios_new

end BIA

/-- Truncation of zero is zero. -/
theorem pyInt_zero : pyInt 0 = 0 := by
  unfold pyInt
  rw [if_pos le_rfl]
  exact Int.floor_zero

namespace BIA

/-- A mix containing the incumbent at its current share plus the entering treatment
at share zero costs the same as the incumbent alone. -/
theorem scenario_cost_zero_entry (m : ModelB) (newname : String) (e : ℤ) (a : ℚ) :
    scenario_cost m [("A", a), (newname, 0)] e = scenario_cost m [("A", a)] e := by
  unfold scenario_cost
  simp only [List.map_cons, List.map_nil, List.sum_cons, List.sum_nil]
  cases treatLookup m.treatments newname with
  | none => simp
  | some t =>
    simp only [mul_zero, pyInt_zero]
    push_cast
    ring

/-- With `max_share = 0`, zero current share for the entrant and `"A"` at share one,
every post-baseline generated scenario is exactly
`[("A", 1), (new_treatment, 0)]`. -/
theorem generate_market_shares_zero (ops : Flexible.FloatOps) (m : ModelB)
    (newname : String) (uptake : UptakeType) (hne : newname ≠ "A") :
    generate_market_shares ops m newname uptake 0 [("A", 1)] none
      = Scenario.mk 0 [("A", 1)] ::
          (List.range' 1 m.config.time_horizon).map
            (fun y => Scenario.mk y [("A", (1 : ℚ)), (newname, 0)]) := by
  have hne' : ¬("A" = newname) := fun h => hne h.symm
  unfold generate_market_shares
  refine congrArg _ (List.map_congr_left ?_)
  intro y hy
  have hshare : ∀ u : UptakeType,
      (match u with
        | .linear => min (0 : ℚ) (0 * y / m.config.time_horizon)
        | .s_curve =>
            (0 : ℚ) / (1 + ops.exp (-(3/2) * ((y : ℚ) - (m.config.time_horizon : ℚ) / 2)))
        | .immediate => (0 : ℚ)
        | .custom => (0 : ℚ) * y / m.config.time_horizon) = 0 := by
    intro u
    cases u <;> norm_num
  simp only [hshare]
  have hset : alSet [("A", (1 : ℚ))] newname 0 = [("A", 1), (newname, 0)] := by
    simp [alSet, alHas, hne']
  have hdisp : (alKeys [("A", (1 : ℚ))]).filter (fun t => t ≠ newname) = ["A"] := by
    simp [alKeys, hne']
  simp only [Option.getD_none, hdisp, hset]
  have htot : ((["A"].map (fun t => alGetD [("A", (1 : ℚ))] t 0)).sum) = 1 := by
    simp [alGetD]
  simp only [htot]
  rw [if_pos (by norm_num : (0 : ℚ) < 1)]
  have hredis : displaceShares [("A", 1)] ["A"] 0 1 [("A", 1), (newname, 0)]
      = [("A", 1), (newname, 0)] := by
    simp [displaceShares, alGetD, alSet, alHas, hne, hne']
  rw [hredis]
  have hvals : alValsSum [("A", (1 : ℚ)), (newname, 0)] = 1 := by
    simp [alValsSum]
  rw [hvals, if_pos (by norm_num : (0 : ℚ) < 1)]
  simp

end BIA

/-- C7 (amended): with current market shares `{"A": 1.0}` and `max_market_share = 0`,
and the entering treatment named differently from the incumbent `A`, the budget
impact is zero in every year, and the cumulative, total, average and peak impacts
(and the peak year) are all zero. -/
theorem C7_zero_uptake_zero_impact (ops : Flexible.FloatOps) (cfg : BIA.Config)
    (pop : BIA.PopulationConfig) (treatments : List BIA.TreatmentOption)
    (uptake : BIA.UptakeType) (newname : String) (hne : newname ≠ "A") :
    (BIA.run_budget_impact ops cfg pop treatments [("A", 1)] newname 0
        uptake).yearly_budget_impact = List.replicate (cfg.time_horizon + 1) 0 ∧
    (BIA.run_budget_impact ops cfg pop treatments [("A", 1)] newname 0
        uptake).cumulative_budget_impact = List.replicate (cfg.time_horizon + 1) 0 ∧
    (BIA.run_budget_impact ops cfg pop treatments [("A", 1)] newname 0
        uptake).total_budget_impact = 0 ∧
    (BIA.run_budget_impact ops cfg pop treatments [("A", 1)] newname 0
        uptake).average_annual_impact = 0 ∧
    (BIA.run_budget_impact ops cfg pop treatments [("A", 1)] newname 0
        uptake).peak_annual_impact = 0 ∧
    (BIA.run_budget_impact ops cfg pop treatments [("A", 1)] newname 0
        uptake).peak_year = 0 := by
  have hm : ∀ y ∈ List.range (cfg.time_horizon + 1),
      BIA.scenario_cost (BIA.ModelB.mk cfg pop treatments)
          (((BIA.generate_market_shares ops (BIA.ModelB.mk cfg pop treatments)
              newname uptake 0 [("A", 1)] none).getD y ⟨y, []⟩).shares)
          (BIA.calculate_eligible_population (BIA.ModelB.mk cfg pop treatments) y) -
        BIA.scenario_cost (BIA.ModelB.mk cfg pop treatments)
          ((((List.range (cfg.time_horizon + 1)).map
              (fun z => BIA.Scenario.mk z [("A", 1)])).getD y ⟨y, []⟩).shares)
          (BIA.calculate_eligible_population (BIA.ModelB.mk cfg pop treatments) y)
        = 0 := by
    intro y hy
    have hylt : y < cfg.time_horizon + 1 := List.mem_range.mp hy
    have hcur : (((List.range (cfg.time_horizon + 1)).map
        (fun z => BIA.Scenario.mk z [("A", (1 : ℚ))])).getD y ⟨y, []⟩).shares
        = [("A", 1)] := by
      rw [List.getD_eq_getElem?_getD, List.getElem?_map, List.getElem?_range hylt]
      rfl
    rw [hcur, BIA.generate_market_shares_zero ops _ newname uptake hne]
    cases y with
    | zero => simp
    | succ k =>
      have hk : k < cfg.time_horizon := by omega
      have hnew : ((BIA.Scenario.mk 0 [("A", (1 : ℚ))] ::
          (List.range' 1 cfg.time_horizon).map
            (fun z => BIA.Scenario.mk z [("A", (1 : ℚ)), (newname, 0)])).getD
          (k + 1) ⟨k + 1, []⟩).shares = [("A", 1), (newname, 0)] := by
        rw [List.getD_eq_getElem?_getD]
        rw [List.getElem?_cons_succ, List.getElem?_map,
          List.getElem?_range' 1 1 hk]
        rfl
      rw [hnew, BIA.scenario_cost_zero_entry, sub_self]
  have himp : (List.range (cfg.time_horizon + 1)).map
      (fun y =>
        BIA.scenario_cost (BIA.ModelB.mk cfg pop treatments)
          (((BIA.generate_market_shares ops (BIA.ModelB.mk cfg pop treatments)
              newname uptake 0 [("A", 1)] none).getD y ⟨y, []⟩).shares)
          (BIA.calculate_eligible_population (BIA.ModelB.mk cfg pop treatments) y) -
        BIA.scenario_cost (BIA.ModelB.mk cfg pop treatments)
          ((((List.range (cfg.time_horizon + 1)).map
              (fun z => BIA.Scenario.mk z [("A", 1)])).getD y ⟨y, []⟩).shares)
          (BIA.calculate_eligible_population (BIA.ModelB.mk cfg pop treatments) y))
      = List.replicate (cfg.time_horizon + 1) 0 := by
    have hconst := List.map_const (List.range (cfg.time_horizon + 1)) (0 : ℚ)
    rw [List.length_range] at hconst
    rw [← hconst]
    exact List.map_congr_left hm
  have hpeak : BIA.peakByAbs (List.replicate (cfg.time_horizon + 1) (0 : ℚ)) = 0 := by
    unfold BIA.peakByAbs
    induction cfg.time_horizon with
    | zero => simp
    | succ n ih =>
      rw [List.replicate_succ, List.foldl_cons]
      rw [List.replicate_succ, List.foldl_cons] at ih
      simpa using ih
  have tot0 : ∀ l : List ℚ, l = List.replicate (cfg.time_horizon + 1) 0 →
      l.sum = 0 := by
    intro l hl
    rw [hl, List.sum_replicate]
    simp
  have div0 : ∀ l : List ℚ, l = List.replicate (cfg.time_horizon + 1) 0 →
      l.sum / ((cfg.time_horizon + 1 : ℕ) : ℚ) = 0 := by
    intro l hl
    rw [tot0 l hl]
    exact zero_div _
  have pk0 : ∀ l : List ℚ, l = List.replicate (cfg.time_horizon + 1) 0 →
      BIA.peakByAbs l = 0 := by
    intro l hl
    rw [hl]
    exact hpeak
  have idx0 : ∀ l : List ℚ, l = List.replicate (cfg.time_horizon + 1) 0 →
      l.findIdx (fun x => x = BIA.peakByAbs l) = 0 := by
    intro l hl
    rw [hl, hpeak, List.replicate_succ, List.findIdx_cons]
    simp
  unfold BIA.run_budget_impact BIA.calculate_costs
  refine ⟨himp, ?_, tot0 _ himp, div0 _ himp, pk0 _ himp, idx0 _ himp⟩
  have hconst := List.map_const (List.range (cfg.time_horizon + 1)) (0 : ℚ)
  rw [List.length_range] at hconst
  rw [← hconst]
  apply List.map_congr_left
  intro y hy
  show _ = (0 : ℚ)
  apply List.sum_eq_zero
  intro x hx
  rcases List.mem_map.mp hx with ⟨z, hz, rfl⟩
  exact hm z (List.mem_of_mem_take hz)

/-- Budget-impact configuration for the concrete C7 runs: two-year horizon (year 0
plus one projected year). -/
def c7Cfg : BIA.Config := { time_horizon := 1 }

/-- Concrete population: 10 people, full prevalence, diagnosis and eligibility. -/
def c7Pop : BIA.PopulationConfig :=
{ total_population := 10, prevalence_rate := 1, incidence_rate := 0 }

/-- Single treatment `A` at annual cost 3. -/
def c7Treats : List BIA.TreatmentOption := [{ name := "A", annual_cost := 3 }]

/-- Witness for C7 at the concrete configuration (entering treatment named
`New Treatment`): every impact metric evaluates to zero. -/
theorem C7_zero_uptake_zero_impact_witness :
    (BIA.run_budget_impact dummyOps c7Cfg c7Pop c7Treats [("A", 1)] "New Treatment" 0
        BIA.UptakeType.immediate).yearly_budget_impact
        = List.replicate (c7Cfg.time_horizon + 1) 0 ∧
    (BIA.run_budget_impact dummyOps c7Cfg c7Pop c7Treats [("A", 1)] "New Treatment" 0
        BIA.UptakeType.immediate).cumulative_budget_impact
        = List.replicate (c7Cfg.time_horizon + 1) 0 ∧
    (BIA.run_budget_impact dummyOps c7Cfg c7Pop c7Treats [("A", 1)] "New Treatment" 0
        BIA.UptakeType.immediate).total_budget_impact = 0 ∧
    (BIA.run_budget_impact dummyOps c7Cfg c7Pop c7Treats [("A", 1)] "New Treatment" 0
        BIA.UptakeType.immediate).average_annual_impact = 0 ∧
    (BIA.run_budget_impact dummyOps c7Cfg c7Pop c7Treats [("A", 1)] "New Treatment" 0
        BIA.UptakeType.immediate).peak_annual_impact = 0 ∧
    (BIA.run_budget_impact dummyOps c7Cfg c7Pop c7Treats [("A", 1)] "New Treatment" 0
        BIA.UptakeType.immediate).peak_year = 0 :=
C7_zero_uptake_zero_impact dummyOps c7Cfg c7Pop c7Treats BIA.UptakeType.immediate
  "New Treatment" (by decide)

/-- C7 counterexample: naming the entering treatment the same as the incumbent `A`
(current shares `A ↦ 1`, `max_market_share = 0`) overwrites `A`'s share with the
zero uptake share, so the year-1 budget impact is `-30`, not zero — the claim fails
for such configurations. -/
theorem C7_counterexample :
    (BIA.run_budget_impact dummyOps c7Cfg c7Pop c7Treats [("A", 1)] "A" 0
        BIA.UptakeType.immediate).yearly_budget_impact = [0, -30] ∧
    ([0, -30] : List ℚ) ≠ List.replicate 2 0 := by
  constructor
  · unfold BIA.run_budget_impact BIA.calculate_costs
    simp [c7Cfg, c7Pop, c7Treats, BIA.generate_market_shares,
      BIA.scenario_cost, BIA.calculate_eligible_population, BIA.treatLookup,
      BIA.TreatmentOption.total_annual_cost, alSet, alHas, alKeys, alGetD,
      alValsSum, BIA.displaceShares, pyInt, List.range_succ, List.find?,
      BIA.Scenario.mk, List.range']
    norm_num
  · simp [List.replicate]

namespace PSA

/-- Abstraction of the seeded numpy generator: each distribution method consumes the
generator state (modelled as a natural number) and returns a float (a rational) plus
the successor state. `run_psa` is quantified over any implementation, covering the
real `np.random.default_rng`. -/
structure RngImpl where
  beta : ℚ → ℚ → ℕ → ℚ × ℕ
  gamma : ℚ → ℚ → ℕ → ℚ × ℕ
  normal : ℚ → ℚ → ℕ → ℚ × ℕ
  lognormal : ℚ → ℚ → ℕ → ℚ × ℕ

/-- A distribution specification dict, with the `.get` defaults of
`sample_from_distribution`. -/
structure DistConfig where
  dtype : String := "normal"
  alpha : ℚ := 1
  beta : ℚ := 1
  shape : ℚ := 1
  scale : ℚ := 1
  mean : ℚ := 0
  std : ℚ := 1
deriving Repr

/-- Embedding of `sample_from_distribution` (probabilistic.py lines 7-39): dispatch
on the distribution type, raising for unknown names. -/
def sample_from_distribution (impl : RngImpl) (cfg : DistConfig) (rng : ℕ) :
    Except String (ℚ × ℕ) :=
if cfg.dtype = "beta" then .ok (impl.beta cfg.alpha cfg.beta rng)
else if cfg.dtype = "gamma" then .ok (impl.gamma cfg.shape cfg.scale rng)
else if cfg.dtype = "normal" then .ok (impl.normal cfg.mean cfg.std rng)
else if cfg.dtype = "lognormal" then .ok (impl.lognormal cfg.mean cfg.std rng)
else .error ("Unsupported distribution type: " ++ cfg.dtype)

/-- Summary block of `run_markov_analysis` (core.py lines 250-258). -/
structure MarkovSummary where
  icer : Option ℚ
  delta_cost : ℚ
  delta_qaly : ℚ
  conclusion : String
  is_dominated : Bool
deriving Repr, DecidableEq

/-- Embedding of `run_markov_analysis` (core.py lines 211-271): read configuration
and per-drug parameters from the mapping with their documented defaults, compare the
two strategies and report the summary. -/
def run_markov_analysis (params : PyDict ℚ) : Except String MarkovSummary :=
let cfg : MarkovCore.Config :=
  { time_horizon := (pyInt (alGetD params "time_horizon" 10)).toNat
    discount_rate_costs := alGetD params "discount_rate" (3/100)
    discount_rate_outcomes := alGetD params "discount_rate" (3/100)
    cohort_size := (pyInt (alGetD params "cohort_size" 1000)).toNat }
let params_a : MarkovCore.Params :=
  { prob_s_to_p := alGetD params "prob_s_to_p_a" (1/10)
    prob_s_to_d := alGetD params "prob_s_to_d" (1/50)
    prob_p_to_d := alGetD params "prob_p_to_d" (3/20)
    cost_drug := alGetD params "cost_drug_a" 3500
    cost_state_s := alGetD params "cost_state_s" 200
    cost_state_p := alGetD params "cost_state_p" 4500
    utility_stable := alGetD params "utility_stable" (17/20)
    utility_progression := alGetD params "utility_progression" (1/2) }
let params_b : MarkovCore.Params :=
  { prob_s_to_p := alGetD params "prob_s_to_p_b" (1/4)
    prob_s_to_d := alGetD params "prob_s_to_d" (1/50)
    prob_p_to_d := alGetD params "prob_p_to_d" (3/20)
    cost_drug := alGetD params "cost_drug_b" 500
    cost_state_s := alGetD params "cost_state_s" 200
    cost_state_p := alGetD params "cost_state_p" 4500
    utility_stable := alGetD params "utility_stable" (17/20)
    utility_progression := alGetD params "utility_progression" (1/2) }
match MarkovCore.compare_strategies cfg params_a params_b with
| .error e => .error e
| .ok r =>
    .ok { icer := r.icer
          delta_cost := r.delta_cost
          delta_qaly := r.delta_qaly
          conclusion := r.conclusion
          is_dominated := r.is_dominated }

/-- One recorded PSA iteration (probabilistic.py lines 78-83). -/
structure IterRecord where
  iteration : ℕ
  delta_cost : ℚ
  delta_qaly : ℚ
  icer : Option ℚ
deriving Repr, DecidableEq

/-- The per-iteration sampling loop (lines 68-72): parameters named by a
distribution are resampled only when they exist in the base mapping, drawing from
the single shared generator in declaration order; sampling errors propagate (they
are raised outside the `try` block). -/
def sampleParams (impl : RngImpl) (base : PyDict ℚ) :
    List (String × DistConfig) → PyDict ℚ → ℕ → Except String (PyDict ℚ × ℕ)
| [], sampled, rng => .ok (sampled, rng)
| (nm, cfg) :: rest, sampled, rng =>
    if alHas base nm then
      match sample_from_distribution impl cfg rng with
      | .error e => .error e
      | .ok (v, rng') => sampleParams impl base rest (alSet sampled nm v) rng'
    else sampleParams impl base rest sampled rng

/-- The Monte-Carlo loop of `run_psa` (lines 66-91): sample, run the engine, record
the summary or silently skip the iteration on engine failure. The progress callback
is effect-only and omitted. -/
def psaLoop (impl : RngImpl) (base : PyDict ℚ) (dists : PyDict DistConfig) :
    ℕ → ℕ → ℕ → List IterRecord → Except String (List IterRecord)
| 0, _, _, acc => .ok acc
| remaining + 1, i, rng, acc =>
    match sampleParams impl base dists base rng with
    | .error e => .error e
    | .ok (sampled, rng') =>
        match run_markov_analysis sampled with
        | .ok r =>
            psaLoop impl base dists remaining (i + 1) rng'
              (acc ++ [⟨i + 1, r.delta_cost, r.delta_qaly, r.icer⟩])
        | .error _ => psaLoop impl base dists remaining (i + 1) rng' acc

/-- The cost-effectiveness test of `calculate_ceac` (lines 145-157): dominant, or a
non-`None` ICER below the threshold. -/
def isCostEffective (it : IterRecord) (wtp : ℚ) : Bool :=
(it.delta_cost < 0 ∧ 0 < it.delta_qaly) ||
  (match it.icer with
   | some i => i < wtp
   | none => false)

/-- Embedding of `calculate_ceac` (probabilistic.py lines 126-166): one point per
threshold; the fraction divides by `len(psa_iterations)`, which raises
`ZeroDivisionError` when no iterations were recorded. -/
def calculate_ceac (its : List IterRecord) : List ℚ → Except String (List (ℚ × ℚ))
| [] => .ok []
| wtp :: rest =>
    if its.length = 0 then .error "ZeroDivisionError: division by zero"
    else
      match calculate_ceac its rest with
      | .error e => .error e
      | .ok tail =>
          .ok ((pyRound wtp 2,
            pyRound (((its.filter (fun it => isCostEffective it wtp)).length : ℚ)
              / its.length) 4) :: tail)

/-- Statistics block of the PSA result; `None` encodes both the empty case and the
falsy-zero formatting of `round(x, 2) if x else None`. -/
structure Statistics where
  mean_icer : Option ℚ
  median_icer : Option ℚ
  ci_lower : Option ℚ
  ci_upper : Option ℚ
deriving Repr, DecidableEq

/-- Boundary formatting `round(v, 2) if v else None` applied to an optional value. -/
def statRound (o : Option ℚ) : Option ℚ :=
match o with
| none => none
| some v => if v = 0 then none else some (pyRound v 2)

/-- Full result of `run_psa` (lines 113-123). -/
structure Output where
  n_iterations : ℕ
  statistics : Statistics
  psa_iterations : List IterRecord
  ceac_data : List (ℚ × ℚ)
deriving Repr, DecidableEq

/-- Embedding of `run_psa` (probabilistic.py lines 42-123): run the seeded
Monte-Carlo loop, derive mean/median and the 2.5/97.5 percentile interval of the
finite ICERs, and compute the CEAC over `linspace(0, 100000, 100)`. -/
def run_psa (impl : RngImpl) (base : PyDict ℚ) (dists : PyDict DistConfig)
    (n_iterations : ℕ) (rng : ℕ) : Except String Output :=
match psaLoop impl base dists n_iterations 0 rng [] with
| .error e => .error e
| .ok its =>
    let icers := its.filterMap (fun it => it.icer)
    let mean_icer : Option ℚ := if icers.length = 0 then none else some (npMean icers)
    let median_icer : Option ℚ :=
      if icers.length = 0 then none else some (npMedian icers)
    let ci_lower : Option ℚ :=
      if icers.length = 0 then none else some (npPercentile icers (5/2))
    let ci_upper : Option ℚ :=
      if icers.length = 0 then none else some (npPercentile icers (195/2))
    match calculate_ceac its (npLinspace 0 100000 100) with
    | .error e => .error e
    | .ok ceac =>
        .ok { n_iterations := its.length
              statistics := { mean_icer := statRound mean_icer
                              median_icer := statRound median_icer
                              ci_lower := statRound ci_lower
                              ci_upper := statRound ci_upper }
              psa_iterations := its.take 1000
              ceac_data := ceac }

end PSA

/-- A base parameter mapping whose every engine invocation fails: the declared
`prob_s_to_d = 2` makes `build_transition_matrix` raise on both strategies, so every
PSA iteration is skipped. -/
def c3BadBase : PyDict ℚ := [("prob_s_to_d", 2)]

/-- The CEAC computation raises on its first threshold when no iterations exist. -/
theorem ceac_empty_error (w : ℚ) (ws : List ℚ) :
    PSA.calculate_ceac [] (w :: ws) = .error "ZeroDivisionError: division by zero" := by
  simp [PSA.calculate_ceac]

/-- The default threshold grid contains 100 points, in particular at least one. -/
theorem npLinspace_default_ne_nil : npLinspace 0 100000 100 ≠ [] := by
  unfold npLinspace
  norm_num
  exact ⟨0, by norm_num⟩

/-- Any `run_psa` call whose loop records no iterations crashes in the CEAC step. -/
theorem run_psa_empty_error (impl : PSA.RngImpl) (base : PyDict ℚ)
    (dists : PyDict PSA.DistConfig) (n rng : ℕ)
    (h : PSA.psaLoop impl base dists n 0 rng [] = .ok []) :
    PSA.run_psa impl base dists n rng
      = .error "ZeroDivisionError: division by zero" := by
  obtain ⟨w, ws, hw⟩ := List.exists_cons_of_ne_nil npLinspace_default_ne_nil
  unfold PSA.run_psa
  rw [h, hw]
  simp [ceac_empty_error]

/-- Every engine run on the bad base parameters fails with the Stable-row error. -/
theorem run_markov_analysis_bad :
    PSA.run_markov_analysis c3BadBase
      = .error "Transition probabilities from Stable exceed 1.0" := by
  unfold PSA.run_markov_analysis MarkovCore.compare_strategies
    MarkovCore.build_transition_matrix
  simp [alGetD, c3BadBase, List.find?]
  norm_num

/-- With no declared distributions and the bad base, the whole loop records no
iterations (each one is skipped). -/
theorem psaLoop_bad (impl : PSA.RngImpl) :
    ∀ (n i rng : ℕ) (acc : List PSA.IterRecord),
      PSA.psaLoop impl c3BadBase [] n i rng acc = .ok acc := by
  intro n
  induction n with
  | zero => intro i rng acc; rfl
  | succ m ih =>
      intro i rng acc
      show PSA.psaLoop impl c3BadBase [] (m + 1) i rng acc = .ok acc
      rw [PSA.psaLoop]
      simp only [PSA.sampleParams, run_markov_analysis_bad]
      exact ih (i + 1) rng acc

/-- C3: `run_psa` with `n_iterations = 0`, and `run_psa` on a base whose every
engine invocation fails (all iterations skipped), both crash with a
`ZeroDivisionError` inside `calculate_ceac` — they do not return an
empty-but-valid statistics block. -/
theorem C3_psa_empty_crash :
    (∀ (impl : PSA.RngImpl) (base : PyDict ℚ) (dists : PyDict PSA.DistConfig)
        (rng : ℕ),
      PSA.run_psa impl base dists 0 rng
        = .error "ZeroDivisionError: division by zero") ∧
    (∀ (impl : PSA.RngImpl) (n rng : ℕ),
      PSA.run_psa impl c3BadBase [] n rng
        = .error "ZeroDivisionError: division by zero") := by
  constructor
  · intro impl base dists rng
    exact run_psa_empty_error impl base dists 0 rng rfl
  · intro impl n rng
    exact run_psa_empty_error impl c3BadBase [] n rng (psaLoop_bad impl n 0 rng [])

/-- A trivial generator implementation for instantiating PSA theorems. -/
def dummyRng : PSA.RngImpl where
  beta := fun _ _ s => (0, s + 1)
  gamma := fun _ _ s => (0, s + 1)
  normal := fun _ _ s => (0, s + 1)
  lognormal := fun _ _ s => (0, s + 1)

/-- C8: `run_psa` is a pure function of its base parameters, distribution
specifications, iteration count and generator state — two invocations with the same
seed-derived generator state produce identical results, in particular identical
ordered sequences of PSA iteration records (the `psa_iterations` field). The
embedding threads the single shared generator through every draw in iteration
order, and no other source of variation exists in the code. -/
theorem C8_psa_seed_determinism (impl : PSA.RngImpl) (base : PyDict ℚ)
    (dists : PyDict PSA.DistConfig) (n : ℕ) (seed₁ seed₂ : ℕ) (h : seed₁ = seed₂) :
    PSA.run_psa impl base dists n seed₁ = PSA.run_psa impl base dists n seed₂ ∧
    (PSA.run_psa impl base dists n seed₁).map PSA.Output.psa_iterations
      = (PSA.run_psa impl base dists n seed₂).map PSA.Output.psa_iterations := by
  rw [h]
  exact ⟨rfl, rfl⟩

/-- Witness for C8 at a concrete seed and inputs. -/
theorem C8_psa_seed_determinism_witness :
    PSA.run_psa dummyRng [("utility_stable", 4/5)]
        [("utility_stable", { dtype := "beta" })] 2 7
      = PSA.run_psa dummyRng [("utility_stable", 4/5)]
          [("utility_stable", { dtype := "beta" })] 2 7 ∧
    (PSA.run_psa dummyRng [("utility_stable", 4/5)]
        [("utility_stable", { dtype := "beta" })] 2 7).map PSA.Output.psa_iterations
      = (PSA.run_psa dummyRng [("utility_stable", 4/5)]
          [("utility_stable", { dtype := "beta" })] 2 7).map
          PSA.Output.psa_iterations :=
C8_psa_seed_determinism dummyRng [("utility_stable", 4/5)]
  [("utility_stable", { dtype := "beta" })] 2 7 7 rfl

namespace VOI

/-- Configuration of the VOI analysis (`VOIConfig`). -/
structure Config where
  wtp_threshold : ℚ := 30000
  n_outer_samples : ℕ := 1000
  n_inner_samples : ℕ := 1000
  population_size : ℕ := 100000
  decision_horizon : ℕ := 10
  annual_discount_rate : ℚ := 7/200
  currency : String := "EUR"
deriving Repr

/-- One PSA iteration consumed by the VOI engine (`PSAIteration`). -/
structure PSAIteration where
  parameters : PyDict ℚ
  costs : PyDict ℚ
  qalys : PyDict ℚ
  nmb : PyDict ℚ
  optimal_strategy : String
deriving Repr

/-- Embedding of `calculate_nmb` (value_of_information.py lines 82-90); note the
Python `wtp = wtp or self.config.wtp_threshold`, under which a supplied threshold of
0 is replaced by the configured one. -/
def calculate_nmb (cfg : Config) (cost qaly : ℚ) (wtp : Option ℚ) : ℚ :=
qaly * pyOrQ wtp cfg.wtp_threshold - cost

/-- One row of the NMB matrix: `iteration.costs[strategy]` /
`iteration.qalys[strategy]` raise `KeyError` for a missing strategy. -/
def nmbRow (cfg : Config) (it : PSAIteration) (wtp : Option ℚ) :
    List String → Except String (List ℚ)
| [] => .ok []
| s :: rest =>
    match alGet it.costs s, alGet it.qalys s with
    | some c, some q =>
        match nmbRow cfg it wtp rest with
        | .error e => .error e
        | .ok tail => .ok (calculate_nmb cfg c q wtp :: tail)
    | _, _ => .error "KeyError"

/-- The NMB matrix, one row per PSA iteration (lines 114-122). -/
def nmbRows (cfg : Config) (strategies : List String) (wtp : Option ℚ) :
    List PSAIteration → Except String (List (List ℚ))
| [] => .ok []
| it :: rest =>
    match nmbRow cfg it wtp strategies with
    | .error e => .error e
    | .ok row =>
        match nmbRows cfg strategies wtp rest with
        | .error e => .error e
        | .ok tail => .ok (row :: tail)

/-- numpy `max` over a possibly empty vector: reduction of a zero-size array
raises. -/
def npMaxE (l : List ℚ) : Except String ℚ :=
match l with
| [] => .error "zero-size array to reduction operation maximum which has no identity"
| x :: xs => .ok (xs.foldl max x)

/-- `np.max(nmb_matrix, axis=1)` (line 125). -/
def rowMaxes : List (List ℚ) → Except String (List ℚ)
| [] => .ok []
| r :: rest =>
    match npMaxE r with
    | .error e => .error e
    | .ok m =>
        match rowMaxes rest with
        | .error e => .error e
        | .ok tail => .ok (m :: tail)

/-- `np.argmax(matrix, axis=1)`. -/
def argmaxRows (rows : List (List ℚ)) : List ℕ := rows.map npArgmax

/-- The CEAC loop of `calculate_evpi` (lines 150-162): per threshold, rebuild the
NMB matrix and record each iteration's argmax strategy index. -/
def ceacArgmax (cfg : Config) (strategies : List String)
    (results : List PSAIteration) : List ℚ → Except String (List (List ℕ))
| [] => .ok []
| w :: ws =>
    match nmbRows cfg strategies (some w) results with
    | .error e => .error e
    | .ok rows =>
        match ceacArgmax cfg strategies results ws with
        | .error e => .error e
        | .ok tail => .ok (argmaxRows rows :: tail)

/-- Result of the EVPI analysis (`EVPIResult`). -/
structure EVPIResult where
  evpi_per_patient : ℚ
  evpi_population : ℚ
  evpi_decision_horizon : ℚ
  optimal_strategy_current : String
  probability_optimal : PyDict ℚ
  ceac_wtp_thresholds : List ℚ
  ceac_probabilities : List (String × List ℚ)
deriving Repr

/-- Embedding of `ValueOfInformation.calculate_evpi` (value_of_information.py lines
92-183): rejects only an empty batch; strategies are the first iteration's cost
keys; `EVPI = max(0, E[max NMB] − max E[NMB])`, plus the probability-optimal table,
the CEAC grid (default `linspace(0, 100000, 21)`), and population/horizon scaling
with the discounted-horizon factor. -/
def calculate_evpi (cfg : Config) (results : List PSAIteration)
    (wtp_range : Option (List ℚ)) : Except String EVPIResult :=
if results.length = 0 then .error "No PSA results available"
else
  let strategies :=
    match results.head? with
    | some it => alKeys it.costs
    | none => []
  match nmbRows cfg strategies (some cfg.wtp_threshold) results with
  | .error e => .error e
  | .ok rows =>
      match rowMaxes rows with
      | .error e => .error e
      | .ok maxes =>
          let expected_max_nmb := npMean maxes
          let expected_nmb := (List.range strategies.length).map
            (fun j => npMean (rows.map (fun r => r.getD j 0)))
          match npMaxE expected_nmb with
          | .error e => .error e
          | .ok max_expected_nmb =>
              let optimal_idx := npArgmax expected_nmb
              let evpi_per_patient := max 0 (expected_max_nmb - max_expected_nmb)
              let optimal_counts := argmaxRows rows
              let prob_optimal := strategies.enum.map
                (fun p => (p.2, npMean (optimal_counts.map
                  (fun c => if c = p.1 then (1 : ℚ) else 0))))
              let wtps := wtp_range.getD (npLinspace 0 100000 21)
              match ceacArgmax cfg strategies results wtps with
              | .error e => .error e
              | .ok opts =>
                  let ceac_probs := strategies.enum.map
                    (fun p => (p.2, opts.map (fun opt => npMean (opt.map
                      (fun oi => if oi = p.1 then (1 : ℚ) else 0)))))
                  let discount_factor := ((List.range cfg.decision_horizon).map
                    (fun t => 1 / (1 + cfg.annual_discount_rate) ^ t)).sum
                  .ok { evpi_per_patient := evpi_per_patient
                        evpi_population :=
                          evpi_per_patient * cfg.population_size
                        evpi_decision_horizon :=
                          evpi_per_patient * cfg.population_size * discount_factor
                        optimal_strategy_current := strategies.getD optimal_idx ""
                        probability_optimal := prob_optimal
                        ceac_wtp_thresholds := wtps
                        ceac_probabilities := ceac_probs }

end VOI

/-- Lookup of the head key of a dict. -/
theorem alGet_cons_self {α : Type} (k : String) (v : α) (t : PyDict α) :
    alGet ((k, v) :: t) k = some v := by
  simp [alGet, List.find?]

/-- One-strategy batches produce singleton NMB rows. -/
theorem nmbRow_single (cfg : VOI.Config) (it : VOI.PSAIteration) (w : Option ℚ)
    (hc : (alGet it.costs "S").isSome) (hq : (alGet it.qalys "S").isSome) :
    VOI.nmbRow cfg it w ["S"]
      = .ok [VOI.calculate_nmb cfg ((alGet it.costs "S").getD 0)
          ((alGet it.qalys "S").getD 0) w] := by
  obtain ⟨c, hc'⟩ := Option.isSome_iff_exists.mp hc
  obtain ⟨q, hq'⟩ := Option.isSome_iff_exists.mp hq
  simp [VOI.nmbRow, hc', hq']

/-- The full NMB matrix of a one-strategy batch is the list of singleton rows. -/
theorem nmbRows_single (cfg : VOI.Config) (w : Option ℚ) :
    ∀ batch : List VOI.PSAIteration,
      (∀ it ∈ batch, (alGet it.costs "S").isSome ∧ (alGet it.qalys "S").isSome) →
      VOI.nmbRows cfg ["S"] w batch
        = .ok (batch.map (fun it => [VOI.calculate_nmb cfg
            ((alGet it.costs "S").getD 0) ((alGet it.qalys "S").getD 0) w])) := by
  intro batch h
  induction batch with
  | nil => rfl
  | cons it rest ih =>
      have hit := h it (List.mem_cons_self it rest)
      rw [VOI.nmbRows, nmbRow_single cfg it w hit.1 hit.2,
        ih (fun x hx => h x (List.mem_cons_of_mem it hx))]
      simp

/-- Row maxima of singleton rows are the entries themselves. -/
theorem rowMaxes_singleton {α : Type} (g : α → ℚ) :
    ∀ l : List α, VOI.rowMaxes (l.map (fun a => [g a])) = .ok (l.map g) := by
  intro l
  induction l with
  | nil => rfl
  | cons a rest ih =>
      rw [List.map_cons, VOI.rowMaxes]
      simp [VOI.npMaxE, ih]

/-- The CEAC loop completes on a one-strategy batch for any threshold grid. -/
theorem ceacArgmax_single (cfg : VOI.Config) (batch : List VOI.PSAIteration)
    (h : ∀ it ∈ batch, (alGet it.costs "S").isSome ∧ (alGet it.qalys "S").isSome) :
    ∀ wtps : List ℚ,
      VOI.ceacArgmax cfg ["S"] batch wtps
        = .ok (wtps.map (fun w => VOI.argmaxRows (batch.map
            (fun it => [VOI.calculate_nmb cfg ((alGet it.costs "S").getD 0)
              ((alGet it.qalys "S").getD 0) (some w)])))) := by
  intro wtps
  induction wtps with
  | nil => rfl
  | cons w ws ih =>
      rw [VOI.ceacArgmax, nmbRows_single cfg (some w) batch h, ih]
      rfl

/-- C9 (amended): only an empty PSA batch is rejected (`No PSA results available`);
a nonempty batch whose iterations carry a single strategy `S` is not rejected —
`calculate_evpi` completes and returns an EVPI of 0 per patient, since with one
strategy the expected maximum NMB equals the maximum expected NMB. -/
theorem C9_voi_single_strategy_not_rejected :
    (∀ (cfg : VOI.Config) (wr : Option (List ℚ)),
      VOI.calculate_evpi cfg [] wr = .error "No PSA results available") ∧
    (∀ (cfg : VOI.Config) (batch : List VOI.PSAIteration) (wr : Option (List ℚ)),
      batch ≠ [] →
      (∀ it ∈ batch, ∃ c, it.costs = [("S", c)]) →
      (∀ it ∈ batch, (alGet it.qalys "S").isSome) →
      ∃ r, VOI.calculate_evpi cfg batch wr = .ok r ∧ r.evpi_per_patient = 0) := by
  constructor
  · intro cfg wr
    rfl
  · intro cfg batch wr hne h1 h2
    have hAll : ∀ it ∈ batch, (alGet it.costs "S").isSome ∧
        (alGet it.qalys "S").isSome := by
      intro it hit
      obtain ⟨c, hc⟩ := h1 it hit
      refine ⟨?_, h2 it hit⟩
      rw [hc, alGet_cons_self]
      rfl
    obtain ⟨it0, rest, rfl⟩ := List.exists_cons_of_ne_nil hne
    obtain ⟨c0, hc0⟩ := h1 it0 (List.mem_cons_self it0 rest)
    have hkeys : alKeys it0.costs = ["S"] := by
      rw [hc0]
      rfl
    unfold VOI.calculate_evpi
    rw [if_neg (by simp)]
    simp only [List.head?_cons, hkeys]
    simp only [nmbRows_single cfg (some cfg.wtp_threshold) (it0 :: rest) hAll,
      rowMaxes_singleton (fun it => VOI.calculate_nmb cfg
        ((alGet it.costs "S").getD 0) ((alGet it.qalys "S").getD 0)
        (some cfg.wtp_threshold)) (it0 :: rest),
      ceacArgmax_single cfg (it0 :: rest) hAll
        (wr.getD (npLinspace 0 100000 21))]
    simp only [List.length_singleton, List.map_cons, List.map_nil,
      List.map_map, Function.comp, List.getD_cons_zero, VOI.npMaxE]
    refine ⟨_, rfl, ?_⟩
    simp only []
    have hXY : ∀ l : List VOI.PSAIteration,
        List.map ((fun (r : List ℚ) => r[0]?.getD 0) ∘ (fun it =>
          [VOI.calculate_nmb cfg ((alGet it.costs "S").getD 0)
            ((alGet it.qalys "S").getD 0) (some cfg.wtp_threshold)])) l
        = List.map (fun it => VOI.calculate_nmb cfg ((alGet it.costs "S").getD 0)
            ((alGet it.qalys "S").getD 0) (some cfg.wtp_threshold)) l :=
      fun l => List.map_congr_left (fun a _ => rfl)
    simp [hXY rest]

/-- Default VOI configuration. -/
def c9Cfg : VOI.Config := {}

/-- A one-strategy PSA batch: a single iteration carrying only strategy `S`. -/
def c9Batch : List VOI.PSAIteration :=
[{ parameters := [], costs := [("S", 5)], qalys := [("S", 2)], nmb := [],
   optimal_strategy := "S" }]

/-- Witness for C9 at the concrete one-strategy batch and threshold grid `[0]`. -/
theorem C9_voi_single_strategy_not_rejected_witness :
    (∀ (wr : Option (List ℚ)),
      VOI.calculate_evpi c9Cfg [] wr = .error "No PSA results available") ∧
    ∃ r, VOI.calculate_evpi c9Cfg c9Batch (some [0]) = .ok r ∧
      r.evpi_per_patient = 0 := by
  refine ⟨fun wr => C9_voi_single_strategy_not_rejected.1 c9Cfg wr, ?_⟩
  refine C9_voi_single_strategy_not_rejected.2 c9Cfg c9Batch (some [0])
    (by simp [c9Batch]) ?_ ?_
  · intro it hit
    rw [List.mem_singleton.mp hit]
    exact ⟨5, rfl⟩
  · intro it hit
    rw [List.mem_singleton.mp hit]
    simp [alGet, List.find?]

/-- C9 counterexample: a VOI invocation on a batch with a single strategy is NOT
rejected — `calculate_evpi` on the concrete one-iteration, one-strategy batch
completes and reports a per-patient EVPI of 0, while only the empty batch raises
`No PSA results available`. -/
theorem C9_counterexample :
    (VOI.calculate_evpi c9Cfg c9Batch (some [0])).map
        (fun r => r.evpi_per_patient) = .ok 0 ∧
    VOI.calculate_evpi c9Cfg [] none = .error "No PSA results available" := by
  constructor
  · unfold VOI.calculate_evpi
    simp [c9Cfg, c9Batch, VOI.nmbRows, VOI.nmbRow, alGet, alKeys, List.find?,
      VOI.calculate_nmb, pyOrQ, VOI.rowMaxes, VOI.npMaxE, npMean, VOI.ceacArgmax,
      VOI.argmaxRows, npArgmax, Except.map, List.range_succ]
  · rfl
